import Mathlib

/-!
Verification of the VeriTrust Tier-0 pipeline core (canonical JSON-LD graph
construction, canonical hashing, atomic writing, manifest assembly/signing),
shallowly embedded from the Python sources under `src/pipeline/`.

Machine integers do not occur (Python integers are unbounded); byte values
are `Nat`s kept below 256 by construction and reduced mod 2^32 where the
SHA-256 compression function requires it.
-/

namespace VT

/-- JSON-representable documents, as handled by Python's `json` module in this
repository: `null`, booleans, (integer) numbers, strings, arrays, and objects
whose fields are kept in insertion order (Python `dict`).  The documents this
pipeline produces contain no floats, so numbers are embedded as integers. -/
inductive Json where
  | null : Json
  | bool : Bool → Json
  | num : Int → Json
  | str : String → Json
  | arr : List Json → Json
  | obj : List (String × Json) → Json

namespace Json

theorem sizeOf_lt_of_mem_arr {j : Json} {l : List Json} (h : j ∈ l) :
    sizeOf j < sizeOf (Json.arr l) := by
  have := List.sizeOf_lt_of_mem h
  simp only [Json.arr.sizeOf_spec]
  omega

theorem sizeOf_lt_of_mem_obj {p : String × Json} {l : List (String × Json)}
    (h : p ∈ l) : sizeOf p.2 < sizeOf (Json.obj l) := by
  have h1 := List.sizeOf_lt_of_mem h
  have h2 : sizeOf p.2 < sizeOf p := by
    obtain ⟨k, v⟩ := p
    simp only [Prod.mk.sizeOf_spec]
    omega
  simp only [Json.obj.sizeOf_spec]
  omega

mutual

/-- Boolean structural equality on `Json` (Lean cannot derive `DecidableEq`
for this nested inductive, so it is spelled out). -/
def beq : Json → Json → Bool
  | .null, .null => true
  | .bool a, .bool b => a == b
  | .num a, .num b => a == b
  | .str a, .str b => a == b
  | .arr a, .arr b => beqList a b
  | .obj a, .obj b => beqPairs a b
  | _, _ => false

/-- Pointwise `beq` on arrays. -/
def beqList : List Json → List Json → Bool
  | [], [] => true
  | x :: xs, y :: ys => beq x y && beqList xs ys
  | _, _ => false

/-- Pointwise `beq` on object members. -/
def beqPairs : List (String × Json) → List (String × Json) → Bool
  | [], [] => true
  | (k, v) :: xs, (k', v') :: ys => k == k' && beq v v' && beqPairs xs ys
  | _, _ => false

end

theorem one_le_sizeOf (a : Json) : 1 ≤ sizeOf a := by
  cases a <;> simp

theorem beqList_iff (n : Nat)
    (ih : ∀ a b : Json, sizeOf a ≤ n → (beq a b = true ↔ a = b)) :
    ∀ la lb : List Json, (∀ x ∈ la, sizeOf x ≤ n) →
      (beqList la lb = true ↔ la = lb) := by
  intro la
  induction la with
  | nil => intro lb _; cases lb <;> simp [beqList]
  | cons x xs ihl =>
    intro lb hsz
    cases lb with
    | nil => simp [beqList]
    | cons y ys =>
      have h1 := ih x y (hsz x (List.mem_cons_self x xs))
      have h2 := ihl ys (fun z hz => hsz z (List.mem_cons_of_mem x hz))
      simp [beqList, h1, h2]

theorem beqPairs_iff (n : Nat)
    (ih : ∀ a b : Json, sizeOf a ≤ n → (beq a b = true ↔ a = b)) :
    ∀ la lb : List (String × Json), (∀ p ∈ la, sizeOf p.2 ≤ n) →
      (beqPairs la lb = true ↔ la = lb) := by
  intro la
  induction la with
  | nil => intro lb _; cases lb <;> simp [beqPairs]
  | cons x xs ihl =>
    intro lb hsz
    cases lb with
    | nil => simp [beqPairs]
    | cons y ys =>
      obtain ⟨k, v⟩ := x
      obtain ⟨k', v'⟩ := y
      have h1 := ih v v' (hsz (k, v) (List.mem_cons_self _ xs))
      have h2 := ihl ys (fun z hz => hsz z (List.mem_cons_of_mem _ hz))
      simp [beqPairs, h1, h2, and_assoc]

theorem beq_iff_eq_aux :
    ∀ (n : Nat) (a b : Json), sizeOf a ≤ n → (beq a b = true ↔ a = b) := by
  intro n
  induction n with
  | zero => intro a b ha; have := one_le_sizeOf a; omega
  | succ n ih =>
    intro a b ha
    cases a <;> cases b <;> try simp [beq]
    case arr.arr la lb =>
      have hsz : ∀ x ∈ la, sizeOf x ≤ n := by
        intro x hx
        have := sizeOf_lt_of_mem_arr hx
        omega
      simpa [beq] using beqList_iff n ih la lb hsz
    case obj.obj la lb =>
      have hsz : ∀ p ∈ la, sizeOf p.2 ≤ n := by
        intro p hp
        have := sizeOf_lt_of_mem_obj hp
        omega
      simpa [beq] using beqPairs_iff n ih la lb hsz

instance : DecidableEq Json := fun a b =>
  decidable_of_iff (beq a b = true) (beq_iff_eq_aux (sizeOf a) a b le_rfl)

end Json

/-- Code-point lexicographic `≤` on character lists: exactly the string
comparison Python's `sorted` uses on `str` keys. -/
def charsLe : List Char → List Char → Bool
  | [], _ => true
  | _ :: _, [] => false
  | a :: as, b :: bs =>
    if a.toNat < b.toNat then true
    else if b.toNat < a.toNat then false
    else charsLe as bs

/-- Python string `≤` (code-point lexicographic). -/
def strLe (a b : String) : Bool := charsLe a.data b.data

theorem charsLe_total (a b : List Char) : charsLe a b = true ∨ charsLe b a = true := by
  induction a generalizing b with
  | nil => left; rfl
  | cons x xs ih =>
    cases b with
    | nil => right; rfl
    | cons y ys =>
      rcases Nat.lt_trichotomy x.toNat y.toNat with h | h | h
      · left; simp [charsLe, h]
      · rcases ih ys with h' | h' <;> [left; right] <;> simp [charsLe, h, h']
      · right; simp [charsLe, h, Nat.lt_asymm h]

theorem charsLe_trans {a b c : List Char} (h1 : charsLe a b = true)
    (h2 : charsLe b c = true) : charsLe a c = true := by
  induction a generalizing b c with
  | nil => rfl
  | cons x xs ih =>
    cases b with
    | nil => simp [charsLe] at h1
    | cons y ys =>
      cases c with
      | nil => simp [charsLe] at h2
      | cons z zs =>
        simp only [charsLe] at h1 h2 ⊢
        split at h1 <;> rename_i hxy
        · split at h2 <;> rename_i hyz
          · simp [Nat.lt_trans hxy hyz]
          · split at h2 <;> rename_i hzy
            · exact absurd h2 (by simp)
            · have : y.toNat = z.toNat := by omega
              simp [this ▸ hxy]
        · split at h1 <;> rename_i hyx
          · exact absurd h1 (by simp)
          · have hxy' : x.toNat = y.toNat := by omega
            split at h2 <;> rename_i hyz
            · simp [hxy' ▸ hyz]
            · split at h2 <;> rename_i hzy
              · exact absurd h2 (by simp)
              · have hyz' : y.toNat = z.toNat := by omega
                have hxz : ¬ x.toNat < z.toNat := by omega
                have hzx : ¬ z.toNat < x.toNat := by omega
                simp only [hxz, if_false, hzx]
                exact ih h1 h2

theorem charsLe_antisymm {a b : List Char} (h1 : charsLe a b = true)
    (h2 : charsLe b a = true) : a = b := by
  induction a generalizing b with
  | nil =>
    cases b with
    | nil => rfl
    | cons y ys => simp [charsLe] at h2
  | cons x xs ih =>
    cases b with
    | nil => simp [charsLe] at h1
    | cons y ys =>
      simp only [charsLe] at h1 h2
      rcases Nat.lt_trichotomy x.toNat y.toNat with h | h | h
      · simp [h, Nat.lt_asymm h] at h2
      · have hx : x = y := Char.eq_of_val_eq (UInt32.ext h)
        subst hx
        simp only [Nat.lt_irrefl, if_false] at h1 h2
        exact congrArg (x :: ·) (ih h1 h2)
      · simp [h, Nat.lt_asymm h] at h1

theorem strLe_antisymm {a b : String} (h1 : strLe a b = true)
    (h2 : strLe b a = true) : a = b := by
  cases a; cases b
  exact congrArg String.mk (charsLe_antisymm h1 h2)

/-- Member order used by `json.dumps(..., sort_keys=True)`: compare the (raw,
unescaped) key strings. -/
def keyLe {α : Type} (p q : String × α) : Prop := strLe p.1 q.1 = true

instance {α : Type} : DecidableRel (keyLe (α := α)) :=
  fun p q => inferInstanceAs (Decidable (strLe p.1 q.1 = true))

instance keyLe_total {α : Type} : IsTotal (String × α) keyLe :=
  ⟨fun p q => charsLe_total p.1.data q.1.data⟩

instance keyLe_trans {α : Type} : IsTrans (String × α) keyLe :=
  ⟨fun _ _ _ h h' => charsLe_trans h h'⟩

/-- Stable sort of object members by key, as `json.dumps(..., sort_keys=True)`
performs before serializing an object. -/
def sortPairs {α : Type} (l : List (String × α)) : List (String × α) :=
  l.insertionSort keyLe

/-- The lower-case hexadecimal digit character for `m < 16`: code point
`48 + m` for a digit, `87 + m` (so `97 + m - 10`, letters from `a`) above. -/
def hexDigitOf (m : Nat) : Char :=
  Char.ofNat (if m < 10 then 48 + m else 87 + m)

/-- The sixteen lower-case hexadecimal digit characters. -/
def hexAlphabet : List Char :=
  (List.range 16).map hexDigitOf

/-- Lower-case hexadecimal digit of `n % 16`, as produced by Python's string
formatting and `bytes.hex()`. -/
def hexChar (n : Nat) : Char :=
  hexDigitOf (n % 16)

theorem hexChar_mem_hexAlphabet (n : Nat) : hexChar n ∈ hexAlphabet :=
  List.mem_map.mpr ⟨n % 16, List.mem_range.mpr (Nat.mod_lt _ (by omega)), rfl⟩

/-- One escaped JSON string character, following CPython's
`json.encoder.py_encode_basestring` with `ensure_ascii=False`: only `"`, `\`
and control characters below U+0020 are escaped. -/
def escapeChar (c : Char) : String :=
  if c = '"' then "\\\""
  else if c = '\\' then "\\\\"
  else if c.toNat = 8 then "\\b"
  else if c = '\t' then "\\t"
  else if c = '\n' then "\\n"
  else if c.toNat = 12 then "\\f"
  else if c = '\r' then "\\r"
  else if c.toNat < 32 then
    "\\u00" ++ String.mk [hexChar (c.toNat / 16), hexChar (c.toNat % 16)]
  else String.mk [c]

/-- A JSON string literal: quotes around the escaped characters. -/
def jsonQuote (s : String) : String :=
  "\"" ++ String.join (s.data.map escapeChar) ++ "\""

/-- Comma-separated concatenation (the item separator of
`separators=(",", ":")`). -/
def joinComma (l : List String) : String :=
  String.intercalate "," l

/-- An object member rendered with the `":"` key separator of
`separators=(",", ":")`. -/
def memberStr (p : String × String) : String := jsonQuote p.1 ++ ":" ++ p.2

mutual

/-- Canonical serialization: `json.dumps(data, ensure_ascii=False,
separators=(",", ":"), sort_keys=True)` from
`src/pipeline/jsonld_builder.py:compute_canonical_json_hash` and
`src/pipeline/manifest_builder.py:build_manifest_and_sign`: minimal
separators, keys sorted lexicographically at every nesting level.
(Members are serialized and then sorted by their raw key; since the sort
compares keys only, this equals the source's sort-then-serialize order —
see `canon_obj`.) -/
def canon : Json → String
  | .null => "null"
  | .bool b => if b then "true" else "false"
  | .num i => toString i
  | .str s => jsonQuote s
  | .arr l => "[" ++ joinComma (canonElems l) ++ "]"
  | .obj l => "\x7b" ++ joinComma ((sortPairs (canonMembers l)).map memberStr) ++ "\x7d"

/-- Canonical serializations of the elements of an array. -/
def canonElems : List Json → List String
  | [] => []
  | x :: xs => canon x :: canonElems xs

/-- Object members with canonically serialized values (raw keys kept for
sorting). -/
def canonMembers : List (String × Json) → List (String × String)
  | [] => []
  | (k, v) :: xs => (k, canon v) :: canonMembers xs

end

theorem canonElems_eq_map (l : List Json) : canonElems l = l.map canon := by
  induction l with
  | nil => rfl
  | cons x xs ih => simp [canonElems, ih]

theorem canonMembers_eq_map (l : List (String × Json)) :
    canonMembers l = l.map fun p => (p.1, canon p.2) := by
  induction l with
  | nil => rfl
  | cons x xs ih => obtain ⟨k, v⟩ := x; simp [canonMembers, ih]

theorem canon_arr (l : List Json) :
    canon (.arr l) = "[" ++ joinComma (l.map canon) ++ "]" := by
  rw [canon, canonElems_eq_map]

/-- Bridge to the source's serialization order: sorting the members by key and
then serializing each value (what `json.dumps(..., sort_keys=True)` does)
yields exactly `canon`. -/
theorem canon_obj (l : List (String × Json)) :
    canon (.obj l) = "\x7b" ++
      joinComma ((sortPairs l).map fun p => jsonQuote p.1 ++ ":" ++ canon p.2)
      ++ "\x7d" := by
  rw [canon, canonMembers_eq_map]
  congr 2
  rw [sortPairs, sortPairs,
    ← List.map_insertionSort keyLe keyLe (fun p => (p.1, canon p.2)) l
      (fun a _ b _ => Iff.rfl), List.map_map]
  refine congrArg joinComma (List.map_congr_left fun p _ => ?_)
  simp [memberStr, Function.comp]

/-- Strict key order, used to show that a sorted member list with distinct
keys is unique among its permutations. -/
def keyLt {α : Type} (p q : String × α) : Prop :=
  strLe p.1 q.1 = true ∧ p.1 ≠ q.1

instance keyLt_antisymm {α : Type} : IsAntisymm (String × α) keyLt :=
  ⟨fun _ _ h h' => absurd (strLe_antisymm h.1 h'.1) h.2⟩

theorem sortPairs_perm {α : Type} (l : List (String × α)) :
    List.Perm (sortPairs l) l :=
  List.perm_insertionSort keyLe l

theorem sortPairs_sorted {α : Type} (l : List (String × α)) :
    List.Sorted keyLe (sortPairs l) :=
  List.sorted_insertionSort keyLe l

/-- Two member lists that are permutations of each other and have pairwise
distinct keys sort identically: this is the crux of canonicalization's
order-independence. -/
theorem sortPairs_eq_of_perm {α : Type} {l l' : List (String × α)}
    (hp : List.Perm l l') (hn : (l.map Prod.fst).Nodup) :
    sortPairs l = sortPairs l' := by
  have hperm : List.Perm (sortPairs l) (sortPairs l') :=
    (sortPairs_perm l).trans (hp.trans (sortPairs_perm l').symm)
  have hkeys : ∀ m : List (String × α), List.Perm m l → List.Sorted keyLe m →
      List.Sorted keyLt m := by
    intro m hm hs
    have hnd : (m.map Prod.fst).Nodup := ((hm.map Prod.fst).nodup_iff).mpr hn
    have hne : m.Pairwise fun p q : String × α => p.1 ≠ q.1 :=
      (List.pairwise_map).mp hnd
    exact (hs.and hne).imp fun h => ⟨h.1, h.2⟩
  exact List.eq_of_perm_of_sorted hperm
    (hkeys _ (sortPairs_perm l) (sortPairs_sorted l))
    (hkeys _ (hperm.symm.trans (sortPairs_perm l)) (sortPairs_sorted l'))

/-- Pairwise-distinct keys, as guaranteed for every object originating from a
Python `dict`. -/
def keysNodup : List String → Bool
  | [] => true
  | k :: ks => !ks.contains k && keysNodup ks

theorem keysNodup_iff (ks : List String) : keysNodup ks = true ↔ ks.Nodup := by
  induction ks with
  | nil => simp [keysNodup]
  | cons k ks ih => simp [keysNodup, ih, List.contains, List.elem_iff]

mutual

/-- Well-formedness of a document: at every nesting level, object keys are
pairwise distinct (automatic for documents coming from Python `dict`s). -/
def nodupKeys : Json → Bool
  | .null => true
  | .bool _ => true
  | .num _ => true
  | .str _ => true
  | .arr l => nodupKeysElems l
  | .obj l => keysNodup (l.map Prod.fst) && nodupKeysMembers l

/-- `nodupKeys` for every element of an array. -/
def nodupKeysElems : List Json → Bool
  | [] => true
  | x :: xs => nodupKeys x && nodupKeysElems xs

/-- `nodupKeys` for every member value of an object. -/
def nodupKeysMembers : List (String × Json) → Bool
  | [] => true
  | (_, v) :: xs => nodupKeys v && nodupKeysMembers xs

end

theorem nodupKeysElems_iff (l : List Json) :
    nodupKeysElems l = true ↔ ∀ x ∈ l, nodupKeys x = true := by
  induction l with
  | nil => simp [nodupKeysElems]
  | cons x xs ih => simp [nodupKeysElems, ih]

theorem nodupKeysMembers_iff (l : List (String × Json)) :
    nodupKeysMembers l = true ↔ ∀ p ∈ l, nodupKeys p.2 = true := by
  induction l with
  | nil => simp [nodupKeysMembers]
  | cons x xs ih =>
    obtain ⟨k, v⟩ := x
    simp [nodupKeysMembers, ih]

mutual

/-- Structural equality of documents, "same keys and values, regardless of
in-memory key insertion order": identical atoms, pointwise-equivalent arrays,
and objects whose member lists agree up to a permutation (after matching the
values up to this same relation). -/
inductive JsonEquiv : Json → Json → Prop where
  | null : JsonEquiv .null .null
  | bool (b : Bool) : JsonEquiv (.bool b) (.bool b)
  | num (i : Int) : JsonEquiv (.num i) (.num i)
  | str (s : String) : JsonEquiv (.str s) (.str s)
  | arr {l₁ l₂ : List Json} :
      JsonEquivElems l₁ l₂ → JsonEquiv (.arr l₁) (.arr l₂)
  | obj {l₁ mid l₂ : List (String × Json)} :
      JsonEquivMembers l₁ mid → mid.Perm l₂ → JsonEquiv (.obj l₁) (.obj l₂)

/-- Pointwise `JsonEquiv` on array elements. -/
inductive JsonEquivElems : List Json → List Json → Prop where
  | nil : JsonEquivElems [] []
  | cons {x y : Json} {xs ys : List Json} :
      JsonEquiv x y → JsonEquivElems xs ys → JsonEquivElems (x :: xs) (y :: ys)

/-- Pointwise key-equality and value-`JsonEquiv` on object members. -/
inductive JsonEquivMembers :
    List (String × Json) → List (String × Json) → Prop where
  | nil : JsonEquivMembers [] []
  | cons (k : String) {v v' : Json} {xs ys : List (String × Json)} :
      JsonEquiv v v' → JsonEquivMembers xs ys →
      JsonEquivMembers ((k, v) :: xs) ((k, v') :: ys)

end

theorem canonElems_eq_of_equiv (n : Nat)
    (ih : ∀ a b : Json, sizeOf a ≤ n → JsonEquiv a b →
      nodupKeys a = true → nodupKeys b = true → canon a = canon b) :
    ∀ l₁ l₂ : List Json, JsonEquivElems l₁ l₂ →
      (∀ x ∈ l₁, sizeOf x ≤ n) →
      (∀ x ∈ l₁, nodupKeys x = true) → (∀ y ∈ l₂, nodupKeys y = true) →
      canonElems l₁ = canonElems l₂ := by
  intro l₁
  induction l₁ with
  | nil => intro l₂ h _ _ _; cases h; rfl
  | cons x xs ihl =>
    intro l₂ h hsz hn1 hn2
    cases h with
    | cons hxy hrest =>
      rename_i y ys
      have h1 := ih x y (hsz x (List.mem_cons_self x xs)) hxy
        (hn1 x (List.mem_cons_self x xs)) (hn2 y (List.mem_cons_self y ys))
      have h2 := ihl ys hrest (fun z hz => hsz z (List.mem_cons_of_mem x hz))
        (fun z hz => hn1 z (List.mem_cons_of_mem x hz))
        (fun z hz => hn2 z (List.mem_cons_of_mem y hz))
      simp [canonElems, h1, h2]

theorem canonMembers_eq_of_equiv (n : Nat)
    (ih : ∀ a b : Json, sizeOf a ≤ n → JsonEquiv a b →
      nodupKeys a = true → nodupKeys b = true → canon a = canon b) :
    ∀ l₁ mid : List (String × Json), JsonEquivMembers l₁ mid →
      (∀ p ∈ l₁, sizeOf p.2 ≤ n) →
      (∀ p ∈ l₁, nodupKeys p.2 = true) → (∀ q ∈ mid, nodupKeys q.2 = true) →
      canonMembers l₁ = canonMembers mid := by
  intro l₁
  induction l₁ with
  | nil => intro mid h _ _ _; cases h; rfl
  | cons x xs ihl =>
    intro mid h hsz hn1 hn2
    cases h with
    | cons k hv hrest =>
      rename_i v v' ys
      have h1 := ih v v' (hsz (k, v) (List.mem_cons_self _ xs)) hv
        (hn1 (k, v) (List.mem_cons_self _ xs)) (hn2 (k, v') (List.mem_cons_self _ ys))
      have h2 := ihl ys hrest (fun z hz => hsz z (List.mem_cons_of_mem _ hz))
        (fun z hz => hn1 z (List.mem_cons_of_mem _ hz))
        (fun z hz => hn2 z (List.mem_cons_of_mem _ hz))
      simp [canonMembers, h1, h2]

theorem canon_eq_of_equiv_aux :
    ∀ (n : Nat) (a b : Json), sizeOf a ≤ n → JsonEquiv a b →
      nodupKeys a = true → nodupKeys b = true → canon a = canon b := by
  intro n
  induction n with
  | zero => intro a b ha; have := Json.one_le_sizeOf a; omega
  | succ n ih =>
    intro a b ha heq hna hnb
    cases heq with
    | null => rfl
    | bool b => rfl
    | num i => rfl
    | str s => rfl
    | arr hf =>
      rename_i l₁ l₂
      have hsz : ∀ x ∈ l₁, sizeOf x ≤ n := by
        intro x hx
        have := Json.sizeOf_lt_of_mem_arr hx
        omega
      rw [canon, canon, canonElems_eq_of_equiv n ih l₁ l₂ hf hsz
        ((nodupKeysElems_iff l₁).mp (by simpa [nodupKeys] using hna))
        ((nodupKeysElems_iff l₂).mp (by simpa [nodupKeys] using hnb))]
    | obj hf hperm =>
      rename_i l₁ mid l₂
      have hsz : ∀ p ∈ l₁, sizeOf p.2 ≤ n := by
        intro p hp
        have := Json.sizeOf_lt_of_mem_obj hp
        omega
      rw [nodupKeys] at hna hnb
      rw [Bool.and_eq_true] at hna hnb
      have hmidn : ∀ q ∈ mid, nodupKeys q.2 = true := by
        intro q hq
        exact (nodupKeysMembers_iff l₂).mp hnb.2 q (hperm.mem_iff.mp hq)
      have hcm : canonMembers l₁ = canonMembers mid :=
        canonMembers_eq_of_equiv n ih l₁ mid hf hsz
          ((nodupKeysMembers_iff l₁).mp hna.2) hmidn
      have hpm : List.Perm (canonMembers mid) (canonMembers l₂) := by
        rw [canonMembers_eq_map, canonMembers_eq_map]
        exact hperm.map _
      have hnd : ((canonMembers l₁).map Prod.fst).Nodup := by
        rw [canonMembers_eq_map, List.map_map]
        exact (keysNodup_iff _).mp hna.1
      rw [canon, canon, sortPairs_eq_of_perm (hcm ▸ hpm) hnd]

/-! ### UTF-8 encoding and SHA-256 (`hashlib.sha256(...).hexdigest()`) -/

/-- UTF-8 encoding of one Unicode scalar value (the bytes Python's
`str.encode("utf-8")` produces for it). -/
def utf8Char (c : Char) : List Nat :=
  let n := c.toNat
  if n < 128 then [n]
  else if n < 2048 then [192 + n / 64, 128 + n % 64]
  else if n < 65536 then [224 + n / 4096, 128 + n / 64 % 64, 128 + n % 64]
  else [240 + n / 262144, 128 + n / 4096 % 64, 128 + n / 64 % 64, 128 + n % 64]

/-- `s.encode("utf-8")` as a byte list. -/
def utf8Bytes (s : String) : List Nat :=
  (s.data.map utf8Char).flatten

/-- Truncation to a 32-bit word. -/
def u32 (n : Nat) : Nat := n % 4294967296

/-- Right rotation of a 32-bit word (exact for inputs below `2^32`). -/
def rotr (n x : Nat) : Nat := x / 2 ^ n + x % 2 ^ n * 2 ^ (32 - n)

/-- Logical right shift. -/
def shr (n x : Nat) : Nat := x / 2 ^ n

/-- SHA-256 `Ch(x,y,z)`; `4294967295 - x` is the 32-bit complement. -/
def shaCh (x y z : Nat) : Nat := (x &&& y) ^^^ ((4294967295 - u32 x) &&& z)

/-- SHA-256 `Maj(x,y,z)`. -/
def shaMaj (x y z : Nat) : Nat := (x &&& y) ^^^ (x &&& z) ^^^ (y &&& z)

/-- SHA-256 `Σ₀`. -/
def bsig0 (x : Nat) : Nat := rotr 2 x ^^^ rotr 13 x ^^^ rotr 22 x

/-- SHA-256 `Σ₁`. -/
def bsig1 (x : Nat) : Nat := rotr 6 x ^^^ rotr 11 x ^^^ rotr 25 x

/-- SHA-256 `σ₀`. -/
def ssig0 (x : Nat) : Nat := rotr 7 x ^^^ rotr 18 x ^^^ shr 3 x

/-- SHA-256 `σ₁`. -/
def ssig1 (x : Nat) : Nat := rotr 17 x ^^^ rotr 19 x ^^^ shr 10 x

/-- The 64 SHA-256 round constants of FIPS 180-4 (the standard lists them in
hexadecimal; they are written in decimal here). -/
def shaK : List Nat :=
  [1116352408, 1899447441, 3049323471, 3921009573, 961987163,
   1508970993, 2453635748, 2870763221, 3624381080, 310598401,
   607225278, 1426881987, 1925078388, 2162078206, 2614888103,
   3248222580, 3835390401, 4022224774, 264347078, 604807628,
   770255983, 1249150122, 1555081692, 1996064986, 2554220882,
   2821834349, 2952996808, 3210313671, 3336571891, 3584528711,
   113926993, 338241895, 666307205, 773529912, 1294757372,
   1396182291, 1695183700, 1986661051, 2177026350, 2456956037,
   2730485921, 2820302411, 3259730800, 3345764771, 3516065817,
   3600352804, 4094571909, 275423344, 430227734, 506948616,
   659060556, 883997877, 958139571, 1322822218, 1537002063,
   1747873779, 1955562222, 2024104815, 2227730452, 2361852424,
   2428436474, 2756734187, 3204031479, 3329325298]

/-- Big-endian bytes of `n`, `w` bytes wide. -/
def toBytesBE : Nat → Nat → List Nat
  | 0, _ => []
  | w + 1, n => toBytesBE w (n / 256) ++ [n % 256]

/-- Big-endian 32-bit words from a byte list (multiples of 4 bytes). -/
def bytesToWords : List Nat → List Nat
  | b0 :: b1 :: b2 :: b3 :: rest =>
    (((b0 * 256 + b1) * 256 + b2) * 256 + b3) :: bytesToWords rest
  | _ => []

/-- SHA-256 message padding: `0x80`, zeros to 56 mod 64, 8-byte big-endian
bit length. -/
def padMessage (msg : List Nat) : List Nat :=
  msg ++ [128] ++ List.replicate ((56 + 64 - (msg.length + 1) % 64) % 64) 0 ++
    toBytesBE 8 (8 * msg.length)

/-- Split a list into chunks of `k` elements (the last one possibly shorter);
`fuel` only bounds the recursion and is irrelevant once at least
`l.length` (`chunksOfAux_join`). -/
def chunksOfAux {α : Type} : Nat → Nat → List α → List (List α)
  | _, _, [] => []
  | 0, _, _ :: _ => []
  | fuel + 1, k, x :: xs => (x :: xs).take k :: chunksOfAux fuel k ((x :: xs).drop k)

/-- Split a list into `k`-element chunks (used with `k = 64` for SHA-256
blocks and `k = 8192` for the streaming file reads of `_file_sha256`). -/
def chunksOf {α : Type} (k : Nat) (l : List α) : List (List α) :=
  chunksOfAux l.length k l

theorem chunksOfAux_join {α : Type} (k : Nat) (hk : 0 < k) :
    ∀ (fuel : Nat) (l : List α), l.length ≤ fuel →
      (chunksOfAux fuel k l).flatten = l := by
  intro fuel
  induction fuel with
  | zero =>
    intro l hl
    cases l with
    | nil => rfl
    | cons x xs => simp at hl
  | succ fuel ih =>
    intro l hl
    cases l with
    | nil => rfl
    | cons x xs =>
      have hdrop : ((x :: xs).drop k).length ≤ fuel := by
        simp only [List.length_drop, List.length_cons] at *
        omega
      simp only [chunksOfAux, List.flatten_cons, ih _ hdrop,
        List.take_append_drop]

/-- Splitting into positive-size chunks and re-concatenating is the
identity: streaming a file in 8 KiB chunks hashes exactly its raw bytes. -/
theorem chunksOf_join {α : Type} (k : Nat) (hk : 0 < k) (l : List α) :
    (chunksOf k l).flatten = l :=
  chunksOfAux_join k hk l.length l le_rfl

/-- The eight SHA-256 working variables. -/
structure Sha8 where
  a : Nat
  b : Nat
  c : Nat
  d : Nat
  e : Nat
  f : Nat
  g : Nat
  h : Nat

/-- The SHA-256 initial hash value of FIPS 180-4 (decimal). -/
def shaH0 : Sha8 :=
  ⟨1779033703, 3144134277, 1013904242, 2773480762,
   1359893119, 2600822924, 528734635, 1541459225⟩

/-- Extend the 16 message-schedule words to 64 (`fuel = 48` steps). -/
def extendW (w : List Nat) : Nat → List Nat
  | 0 => w
  | k + 1 =>
    let i := w.length
    extendW (w ++ [u32 (ssig1 (w.getD (i - 2) 0) + w.getD (i - 7) 0 +
      ssig0 (w.getD (i - 15) 0) + w.getD (i - 16) 0)]) k

/-- One SHA-256 round. -/
def roundStep (s : Sha8) (kw : Nat × Nat) : Sha8 :=
  let t1 := u32 (s.h + bsig1 s.e + shaCh s.e s.f s.g + kw.1 + kw.2)
  let t2 := u32 (bsig0 s.a + shaMaj s.a s.b s.c)
  ⟨u32 (t1 + t2), s.a, s.b, s.c, u32 (s.d + t1), s.e, s.f, s.g⟩

/-- SHA-256 compression of one 64-byte block. -/
def compressBlock (s : Sha8) (block : List Nat) : Sha8 :=
  let w := extendW (bytesToWords block) 48
  let t := (shaK.zip w).foldl roundStep s
  ⟨u32 (s.a + t.a), u32 (s.b + t.b), u32 (s.c + t.c), u32 (s.d + t.d),
   u32 (s.e + t.e), u32 (s.f + t.f), u32 (s.g + t.g), u32 (s.h + t.h)⟩

/-- SHA-256 digest of a byte list, as eight 32-bit words. -/
def sha256Words (msg : List Nat) : List Nat :=
  let fin := (chunksOf 64 (padMessage msg)).foldl compressBlock shaH0
  [fin.a, fin.b, fin.c, fin.d, fin.e, fin.f, fin.g, fin.h]

/-- `w` lower-case hex digits of `n`, most significant first. -/
def hexNat : Nat → Nat → List Char
  | 0, _ => []
  | w + 1, n => hexNat w (n / 16) ++ [hexChar n]

theorem hexNat_length (w : Nat) : ∀ n : Nat, (hexNat w n).length = w := by
  induction w with
  | zero => intro n; rfl
  | succ w ih => intro n; simp [hexNat, ih]

theorem hexNat_mem (w : Nat) :
    ∀ (n : Nat) (c : Char), c ∈ hexNat w n → c ∈ hexAlphabet := by
  induction w with
  | zero => intro n c hc; simp [hexNat] at hc
  | succ w ih =>
    intro n c hc
    simp only [hexNat, List.mem_append, List.mem_singleton] at hc
    rcases hc with hc | hc
    · exact ih _ c hc
    · exact hc ▸ hexChar_mem_hexAlphabet n

/-- `hashlib.sha256(msg).hexdigest()`: the 64-character lower-case
hexadecimal SHA-256 digest of a byte sequence. -/
def sha256hex (msg : List Nat) : String :=
  String.mk ((sha256Words msg).map (hexNat 8)).flatten

theorem sha256hex_length (msg : List Nat) : (sha256hex msg).length = 64 := by
  simp [sha256hex, sha256Words, String.length, List.length_flatten, hexNat_length]

theorem sha256hex_chars (msg : List Nat) :
    ∀ c ∈ (sha256hex msg).data, c ∈ hexAlphabet := by
  intro c hc
  simp only [sha256hex, List.mem_flatten, List.mem_map] at hc
  obtain ⟨l, ⟨w, _, rfl⟩, hcl⟩ := hc
  exact hexNat_mem 8 w c hcl

/-- `compute_canonical_json_hash` from `src/pipeline/jsonld_builder.py`:
SHA-256 hexdigest of the canonical serialization's UTF-8 bytes. -/
def compute_canonical_json_hash (data : Json) : String :=
  sha256hex (utf8Bytes (canon data))

/-- C1: structurally equal JSON-representable documents (same keys and
values, any in-memory key insertion order; keys duplicate-free as they are
for every Python `dict`) canonicalize to byte-identical UTF-8 output, so
`compute_canonical_json_hash` returns the same 64-hex-character SHA-256
digest for both. -/
theorem canonical_hash_eq_of_structural_eq (a b : Json)
    (heq : JsonEquiv a b) (ha : nodupKeys a = true) (hb : nodupKeys b = true) :
    canon a = canon b ∧
    compute_canonical_json_hash a = compute_canonical_json_hash b ∧
    (compute_canonical_json_hash a).length = 64 ∧
    ∀ c ∈ (compute_canonical_json_hash a).data, c ∈ hexAlphabet := by
  have hc : canon a = canon b :=
    canon_eq_of_equiv_aux (sizeOf a) a b le_rfl heq ha hb
  exact ⟨hc, by rw [compute_canonical_json_hash, compute_canonical_json_hash, hc],
    sha256hex_length _, sha256hex_chars _⟩

/-- C1 witness: the spec's example, `\x7b"b":1,"a":2\x7d` versus
`\x7b"a":2,"b":1\x7d`. -/
theorem canonical_hash_eq_of_structural_eq_witness :
    nodupKeys (Json.obj [("b", .num 1), ("a", .num 2)]) = true ∧
    nodupKeys (Json.obj [("a", .num 2), ("b", .num 1)]) = true ∧
    compute_canonical_json_hash (Json.obj [("b", .num 1), ("a", .num 2)]) =
      compute_canonical_json_hash (Json.obj [("a", .num 2), ("b", .num 1)]) :=
  ⟨by decide, by decide,
    (canonical_hash_eq_of_structural_eq
      (Json.obj [("b", .num 1), ("a", .num 2)])
      (Json.obj [("a", .num 2), ("b", .num 1)])
      (JsonEquiv.obj
        (JsonEquivMembers.cons "b" (JsonEquiv.num 1)
          (JsonEquivMembers.cons "a" (JsonEquiv.num 2) JsonEquivMembers.nil))
        (List.Perm.swap ("a", Json.num 2) ("b", Json.num 1) []))
      (by decide) (by decide)).2.1⟩

/-! ### Human-readable serialization (`json.dump(..., ensure_ascii=False,
indent=2)`) used by the atomic writers for the files on disk -/

/-- Indentation prefix at nesting level `n` (`indent=2`). -/
def pad (n : Nat) : String := String.mk (List.replicate (2 * n) ' ')

/-- Lines of an indented container are joined by `",\n"`: with `indent`,
Python's item separator is `","` followed by a newline and indentation. -/
def joinCommaNl (l : List String) : String := String.intercalate ",\n" l

mutual

/-- `json.dump(data, f, ensure_ascii=False, indent=2)`: insertion-order keys,
two-space indentation, `": "` key separator, no trailing newline.  Empty
containers are rendered inline. -/
def ser2 : Nat → Json → String
  | _, .null => "null"
  | _, .bool b => if b then "true" else "false"
  | _, .num i => toString i
  | _, .str s => jsonQuote s
  | _, .arr [] => "[]"
  | lvl, .arr (x :: xs) =>
    "[\n" ++ joinCommaNl (ser2Elems (lvl + 1) (x :: xs)) ++ "\n" ++ pad lvl ++ "]"
  | _, .obj [] => "\x7b\x7d"
  | lvl, .obj (m :: ms) =>
    "\x7b\n" ++ joinCommaNl (ser2Members (lvl + 1) (m :: ms)) ++ "\n" ++ pad lvl
      ++ "\x7d"

/-- Indented lines for array elements. -/
def ser2Elems : Nat → List Json → List String
  | _, [] => []
  | lvl, x :: xs => (pad lvl ++ ser2 lvl x) :: ser2Elems lvl xs

/-- Indented lines for object members. -/
def ser2Members : Nat → List (String × Json) → List String
  | _, [] => []
  | lvl, (k, v) :: xs =>
    (pad lvl ++ jsonQuote k ++ ": " ++ ser2 lvl v) :: ser2Members lvl xs

end

/-- The bytes `json.dump(data, f, ensure_ascii=False, indent=2)` writes. -/
def dumpBytes (data : Json) : List Nat := utf8Bytes (ser2 0 data)

/-! ### File system model and the atomic writers
(`src/pipeline/utils/atomic_writer.py`) -/

/-- The output namespace: an association of paths to file contents (bytes).
`fsGet` returns the first binding, `fsSet`/`fsRemove` keep it duplicate-free. -/
abbrev FS := List (String × List Nat)

/-- Content of the file at `p`, `none` if it does not exist. -/
def fsGet (fs : FS) (p : String) : Option (List Nat) :=
  match fs with
  | [] => none
  | (q, c) :: rest => if q = p then some c else fsGet rest p

/-- Delete the file at `p` (no-op if absent): `tmp.unlink()`. -/
def fsRemove (fs : FS) (p : String) : FS :=
  fs.filter fun e => e.1 != p

/-- Write (create or overwrite) the file at `p`. -/
def fsSet (fs : FS) (p : String) (c : List Nat) : FS :=
  (p, c) :: fsRemove fs p

theorem fsGet_remove_self (fs : FS) (p : String) : fsGet (fsRemove fs p) p = none := by
  induction fs with
  | nil => rfl
  | cons e rest ih =>
    obtain ⟨q, c⟩ := e
    by_cases h : q = p <;> simp [fsRemove, fsGet, h, bne_iff_ne] at ih ⊢ <;>
      simpa [fsRemove, h] using ih

theorem fsGet_remove_ne (fs : FS) {p q : String} (h : p ≠ q) :
    fsGet (fsRemove fs p) q = fsGet fs q := by
  induction fs with
  | nil => rfl
  | cons e rest ih =>
    obtain ⟨r, c⟩ := e
    by_cases hr : r = p
    · subst hr
      have e1 : fsRemove ((r, c) :: rest) r = fsRemove rest r := by
        simp [fsRemove]
      rw [e1, ih]
      simp [fsGet, h]
    · have e1 : fsRemove ((r, c) :: rest) p = (r, c) :: fsRemove rest p := by
        simp [fsRemove, hr]
      rw [e1]
      by_cases hq : r = q <;> simp [fsGet, hq, ih]

theorem fsGet_set_self (fs : FS) (p : String) (c : List Nat) :
    fsGet (fsSet fs p c) p = some c := by
  simp [fsSet, fsGet]

theorem fsGet_set_ne (fs : FS) {p q : String} (h : p ≠ q) (c : List Nat) :
    fsGet (fsSet fs p c) q = fsGet fs q := by
  simp [fsSet, fsGet, h, fsGet_remove_ne fs h]

/-- `path.with_suffix(path.suffix + ".tmp")`: the sibling staging path. -/
def tmpPath (p : String) : String := p ++ ".tmp"

theorem tmpPath_ne (p : String) : tmpPath p ≠ p := by
  intro h
  have hl := congrArg String.length h
  rw [tmpPath, String.length_append] at hl
  have h4 : ".tmp".length = 4 := by decide
  omega

/-- The staged-write operations whose `OSError` failures the writers catch:
creating parent directories, writing the temporary file, and the final
`tmp.replace(path)`. -/
inductive WStep where
  | mkdirs
  | writeTmp
  | replace
deriving DecidableEq

/-- `atomic_write_bytes` from `src/pipeline/utils/atomic_writer.py`, with
fault injection: `failAt` names the staged operation whose `OSError` is
raised (`none` for a successful run), and `partialBytes` is whatever prefix a
failed temporary-file write left behind.  On any failure the handler removes
the temporary file if it exists and re-raises (`Except.error`, carrying the
resulting file system); on success the temporary file is renamed onto the
final path. -/
def atomic_write_bytes (fs : FS) (path : String) (content : List Nat)
    (failAt : Option WStep) (partialBytes : List Nat) : Except FS FS :=
  let tmp := tmpPath path
  match failAt with
  | some .mkdirs => .error (fsRemove fs tmp)
  | some .writeTmp => .error (fsRemove (fsSet fs tmp partialBytes) tmp)
  | some .replace => .error (fsRemove (fsSet fs tmp content) tmp)
  | none => .ok (fsSet (fsRemove (fsSet fs tmp content) tmp) path content)

/-- `atomic_write_json` from `src/pipeline/utils/atomic_writer.py`: the same
staged protocol, writing the `indent=2` serialization of a document. -/
def atomic_write_json (fs : FS) (path : String) (data : Json)
    (failAt : Option WStep) (partialBytes : List Nat) : Except FS FS :=
  atomic_write_bytes fs path (dumpBytes data) failAt partialBytes

/-- C4: all-or-nothing semantics of the atomic writers.  If any staged
operation fails before the final rename, the `.tmp` sibling is removed, the
error is propagated, and the target path keeps exactly its prior content
(absent if it was absent); on success the target holds exactly the new
content and no `.tmp` sibling remains.  Stated for `atomic_write_bytes` and
for `atomic_write_json` (whose content is the `indent=2` serialization). -/
theorem atomic_write_all_or_nothing (fs : FS) (path : String)
    (content partialBytes : List Nat) (data : Json) (failAt : Option WStep) :
    (∀ s : WStep, failAt = some s →
      ∃ fs', atomic_write_bytes fs path content failAt partialBytes = .error fs' ∧
        fsGet fs' path = fsGet fs path ∧ fsGet fs' (tmpPath path) = none ∧
        atomic_write_json fs path data failAt partialBytes =
          .error (fsRemove (if s = .mkdirs then fs
            else fsSet fs (tmpPath path)
              (if s = .writeTmp then partialBytes else dumpBytes data))
            (tmpPath path))) ∧
    (failAt = none →
      ∃ fs', atomic_write_bytes fs path content failAt partialBytes = .ok fs' ∧
        fsGet fs' path = some content ∧ fsGet fs' (tmpPath path) = none ∧
        ∃ fsj, atomic_write_json fs path data failAt partialBytes = .ok fsj ∧
          fsGet fsj path = some (dumpBytes data) ∧
          fsGet fsj (tmpPath path) = none) := by
  constructor
  · intro s hs
    subst hs
    cases s with
    | mkdirs =>
      exact ⟨_, rfl, fsGet_remove_ne _ (tmpPath_ne path), fsGet_remove_self _ _,
        by simp [atomic_write_json, atomic_write_bytes]⟩
    | writeTmp =>
      refine ⟨_, rfl, ?_, fsGet_remove_self _ _,
        by simp [atomic_write_json, atomic_write_bytes]⟩
      rw [fsGet_remove_ne _ (tmpPath_ne path), fsGet_set_ne _ (tmpPath_ne path)]
    | replace =>
      refine ⟨_, rfl, ?_, fsGet_remove_self _ _,
        by simp [atomic_write_json, atomic_write_bytes]⟩
      rw [fsGet_remove_ne _ (tmpPath_ne path), fsGet_set_ne _ (tmpPath_ne path)]
  · intro hnone
    subst hnone
    refine ⟨_, rfl, fsGet_set_self _ _ _, ?_, _, rfl, fsGet_set_self _ _ _, ?_⟩ <;>
      (rw [fsGet_set_ne _ (Ne.symm (tmpPath_ne path))]
       exact fsGet_remove_self _ _)

/-- C4 witness: a concrete file system where the target already exists; a
failure during the final rename leaves it untouched with no `.tmp` sibling,
and a successful run replaces its content. -/
theorem atomic_write_all_or_nothing_witness :
    (∃ fs', atomic_write_bytes [("out/firms.jsonld", [1, 2])] "out/firms.jsonld"
        [3, 4] (some .replace) [9] = .error fs' ∧
      fsGet fs' "out/firms.jsonld" =
        fsGet [("out/firms.jsonld", [1, 2])] "out/firms.jsonld" ∧
      fsGet fs' (tmpPath "out/firms.jsonld") = none ∧
      atomic_write_json [("out/firms.jsonld", [1, 2])] "out/firms.jsonld"
          Json.null (some .replace) [9] =
        .error (fsRemove (if WStep.replace = WStep.mkdirs
            then [("out/firms.jsonld", [1, 2])]
            else fsSet [("out/firms.jsonld", [1, 2])] (tmpPath "out/firms.jsonld")
              (if WStep.replace = WStep.writeTmp then [9]
               else dumpBytes Json.null))
          (tmpPath "out/firms.jsonld"))) ∧
    ∃ fs', atomic_write_bytes [("out/firms.jsonld", [1, 2])] "out/firms.jsonld"
        [3, 4] none [9] = .ok fs' ∧
      fsGet fs' "out/firms.jsonld" = some [3, 4] ∧
      fsGet fs' (tmpPath "out/firms.jsonld") = none ∧
      ∃ fsj, atomic_write_json [("out/firms.jsonld", [1, 2])] "out/firms.jsonld"
          Json.null none [9] = .ok fsj ∧
        fsGet fsj "out/firms.jsonld" = some (dumpBytes Json.null) ∧
        fsGet fsj (tmpPath "out/firms.jsonld") = none :=
  ⟨(atomic_write_all_or_nothing [("out/firms.jsonld", [1, 2])] "out/firms.jsonld"
      [3, 4] [9] Json.null (some .replace)).1 .replace rfl,
    (atomic_write_all_or_nothing [("out/firms.jsonld", [1, 2])] "out/firms.jsonld"
      [3, 4] [9] Json.null none).2 rfl⟩

/-! ### JSON-LD graph construction (`src/pipeline/jsonld_builder.py`) -/

/-- First-match association lookup (Python `dict` access / `dict.get`). -/
def alookup {α : Type} : List (String × α) → String → Option α
  | [], _ => none
  | (k, v) :: rest, key => if k = key then some v else alookup rest key

/-- Python `dict` member access on a document (`entity["offices"]`). -/
def jget (j : Json) (k : String) : Option Json :=
  match j with
  | .obj l => alookup l k
  | _ => none

theorem string_append_left_cancel {a s t : String} (h : a ++ s = a ++ t) :
    s = t := by
  apply String.ext
  have hd := congrArg String.data h
  rw [String.data_append, String.data_append] at hd
  exact List.append_cancel_left hd

/-- The normalized firm record that reaches the graph builder at run time
(`NormalizedFirm` from `src/pipeline/normalize.py`; the builder reads its
`sraId`, `name` and `regulatoryStatus`). -/
structure FirmModel where
  sraId : String
  sraNumber : String
  name : String
  regulatoryStatus : String
  authorisationType : String
  organisationType : String
  companyRegNo : String
  constitution : String
deriving DecidableEq

/-- `NormalizedAddress` from `src/pipeline/normalize.py`. -/
structure NormalizedAddress where
  streetAddress : String
  addressLocality : String
  postalCode : String
  addressCountry : String
deriving DecidableEq

/-- `NormalizedOffice` from `src/pipeline/normalize.py` (what the graph
builder's `OfficeModel` parameter receives at run time). -/
structure OfficeModel where
  officeId : String
  firmSraId : String
  isHeadOffice : Bool
  address : NormalizedAddress
deriving DecidableEq

/-- `_iri_firm`: `f"{PUBLIC_ID_BASE}firm{sra_id}"` with the configured
identifier base passed explicitly. -/
def iriFirm (idBase sraId : String) : String := idBase ++ "firm/" ++ sraId

/-- `_iri_office`. -/
def iriOffice (idBase officeId : String) : String := idBase ++ "office/" ++ officeId

theorem iriFirm_inj {idBase x y : String} (h : iriFirm idBase x = iriFirm idBase y) :
    x = y := by
  rw [iriFirm, iriFirm, String.append_assoc, String.append_assoc] at h
  exact string_append_left_cancel (string_append_left_cancel h)

/-- `VT_CONTEXT`. -/
def vtContext : Json :=
  Json.obj [("@vocab", .str "https://veritrustgroup.org/def/tier0/"),
    ("schema", .str "https://schema.org/"),
    ("vt", .str "https://veritrustgroup.org/def/tier0/")]

/-- `build_office_entity`: the `OfficeLD` dump, fields in declaration order
(`model_dump(by_alias=True)`), with the address embedded as the normalized
address's four-field dump. -/
def build_office_entity (idBase : String) (model : OfficeModel) : Json :=
  Json.obj [
    ("@id", .str (iriOffice idBase model.officeId)),
    ("@type", .arr [.str "vt:RegulatedOffice", .str "schema:PostalAddress"]),
    ("officeId", .str model.officeId),
    ("firm", .obj [("@id", .str (iriFirm idBase model.firmSraId))]),
    ("isHeadOffice", .bool model.isHeadOffice),
    ("address", .obj [
      ("streetAddress", .str model.address.streetAddress),
      ("addressLocality", .str model.address.addressLocality),
      ("postalCode", .str model.address.postalCode),
      ("addressCountry", .str model.address.addressCountry)]),
    ("sameAs", .str ("https://www.sra.org.uk/consumers/register/office/?id="
      ++ model.officeId))]

/-- `build_firm_entity`: the `FirmLD` dump.  (The source also passes a
`legalName` keyword, but `FirmLD` declares no such field, so pydantic's
default `extra="ignore"` drops it from the dump.)  Note the `offices` member
holds the full office entity objects passed in, not identifier references. -/
def build_firm_entity (idBase : String) (model : FirmModel)
    (office_entities : List Json) : Json :=
  Json.obj [
    ("@id", .str (iriFirm idBase model.sraId)),
    ("@type", .arr [.str "vt:RegulatedFirm", .str "schema:LegalService"]),
    ("name", .str model.name),
    ("regulatoryStatus", .str model.regulatoryStatus),
    ("sraId", .str model.sraId),
    ("offices", .arr office_entities),
    ("sameAs", .str ("https://www.sra.org.uk/consumers/register/organisation/?id="
      ++ model.sraId))]

/-- One step of the `offices_by_firm.setdefault(off.firmSraId, []).append(off)`
loop: append to the existing entry, or add a new key at the end. -/
def obfStep (m : List (String × List OfficeModel)) (o : OfficeModel) :
    List (String × List OfficeModel) :=
  if (alookup m o.firmSraId).isSome then
    m.map fun e => if e.1 = o.firmSraId then (e.1, e.2 ++ [o]) else e
  else m ++ [(o.firmSraId, [o])]

/-- The `offices_by_firm` index (insertion-order preserving per firm). -/
def offices_by_firm (offices : List OfficeModel) :
    List (String × List OfficeModel) :=
  offices.foldl obfStep []

theorem alookup_obf_update (m : List (String × List OfficeModel))
    (key k : String) (o : OfficeModel) :
    alookup (m.map fun e => if e.1 = key then (e.1, e.2 ++ [o]) else e) k =
      if k = key then (alookup m k).map (· ++ [o]) else alookup m k := by
  induction m with
  | nil => simp [alookup]
  | cons e rest ih =>
    obtain ⟨k', v⟩ := e
    simp only [List.map_cons]
    by_cases h1 : k' = key
    · subst h1
      simp only [if_pos rfl]
      by_cases h2 : k' = k
      · subst h2
        simp [alookup]
      · have h3 : ¬ k = k' := fun h => h2 h.symm
        simp [alookup, h2, h3, ih]
    · simp only [if_neg h1]
      by_cases h2 : k' = k
      · subst h2
        simp [alookup, h1]
      · simp [alookup, h2, ih]

theorem alookup_append_single (m : List (String × List OfficeModel))
    (key k : String) (v : List OfficeModel) :
    alookup (m ++ [(key, v)]) k =
      ((alookup m k).orElse fun _ => if key = k then some v else none) := by
  induction m with
  | nil => simp [alookup]
  | cons e rest ih =>
    obtain ⟨k', v'⟩ := e
    by_cases h : k' = k <;> simp [alookup, h, ih]

theorem obf_loop (offices : List OfficeModel) :
    ∀ (m : List (String × List OfficeModel)) (k : String),
      ((alookup (offices.foldl obfStep m) k).getD []) =
        ((alookup m k).getD []) ++ offices.filter (fun o => o.firmSraId == k) := by
  induction offices with
  | nil => intro m k; simp
  | cons o rest ih =>
    intro m k
    rw [List.foldl_cons, ih, List.filter_cons]
    by_cases hk : o.firmSraId = k
    · subst hk
      have : alookup (obfStep m o) o.firmSraId =
          some (((alookup m o.firmSraId).getD []) ++ [o]) := by
        rw [obfStep]
        rcases hm : alookup m o.firmSraId with _ | l
        · simp [hm, alookup_append_single]
        · simp [hm, alookup_obf_update]
      simp [this]
    · have hk' : ¬ k = o.firmSraId := fun h => hk h.symm
      have : alookup (obfStep m o) k = alookup m k := by
        rw [obfStep]
        rcases hm : alookup m o.firmSraId with _ | l
        · simp [hm, alookup_append_single, hk]
        · simp [hm, alookup_obf_update, hk']
      rw [this]
      simp [hk]

/-- The office entities of one firm:
`[build_office_entity(o) for o in offices_by_firm.get(firm.sraId, [])]`. -/
def firmOfficeEntities (idBase : String)
    (obf : List (String × List OfficeModel)) (f : FirmModel) : List Json :=
  ((alookup obf f.sraId).getD []).map (build_office_entity idBase)

/-- The `for firm in firms: graph.append(firm_entity); graph.extend(...)`
loop. -/
def graphEntities (idBase : String) (obf : List (String × List OfficeModel)) :
    List FirmModel → List Json
  | [] => []
  | firm :: rest =>
    (build_firm_entity idBase firm (firmOfficeEntities idBase obf firm) ::
      firmOfficeEntities idBase obf firm) ++ graphEntities idBase obf rest

/-- `build_jsonld_graph` from `src/pipeline/jsonld_builder.py`. -/
def build_jsonld_graph (idBase : String) (firms : List FirmModel)
    (offices : List OfficeModel) : Json :=
  Json.obj [("@context", vtContext),
    ("@graph", .arr (graphEntities idBase (offices_by_firm offices) firms))]

/-- The offices belonging to a firm, in the input's original order (what
`offices_by_firm.get(firm.sraId, [])` resolves to: `obf_loop`). -/
def officesOf (offices : List OfficeModel) (f : FirmModel) : List OfficeModel :=
  offices.filter fun o => o.firmSraId == f.sraId

theorem firmOfficeEntities_eq (idBase : String) (offices : List OfficeModel)
    (f : FirmModel) :
    firmOfficeEntities idBase (offices_by_firm offices) f =
      (officesOf offices f).map (build_office_entity idBase) := by
  rw [firmOfficeEntities, offices_by_firm, obf_loop offices [] f.sraId]
  rfl

/-- The spec's single-firm example. -/
def exFirm : FirmModel := ⟨"F1", "", "Firm One", "Active", "", "", "", ""⟩

/-- The spec's single-office example. -/
def exOffice : OfficeModel := ⟨"O1", "F1", true, ⟨"X", "Town", "123", "UK"⟩⟩

/-- C2 (amended): `build_jsonld_graph` emits firms in the input's original
order, each firm entity immediately followed by that firm's office entities
in their original order; the firm entity's `offices` member holds the full
office entity objects (each of which carries the office's identifier as its
`@id`) rather than bare identifier references.  For the spec's
single-firm/single-office example the `@graph` has exactly the firm entity
followed by its office entity, and the firm's `offices` list holds exactly
that office entity. -/
theorem build_jsonld_graph_order (idBase : String) (firms : List FirmModel)
    (offices : List OfficeModel) :
    build_jsonld_graph idBase firms offices =
      Json.obj [("@context", vtContext),
        ("@graph", .arr (firms.flatMap fun f =>
          build_firm_entity idBase f
              ((officesOf offices f).map (build_office_entity idBase)) ::
            (officesOf offices f).map (build_office_entity idBase)))] ∧
    jget (build_jsonld_graph idBase [exFirm] [exOffice]) "@graph" =
      some (.arr [
        build_firm_entity idBase exFirm [build_office_entity idBase exOffice],
        build_office_entity idBase exOffice]) ∧
    jget (build_firm_entity idBase exFirm [build_office_entity idBase exOffice])
        "offices" = some (.arr [build_office_entity idBase exOffice]) ∧
    jget (build_office_entity idBase exOffice) "@id" =
      some (.str (iriOffice idBase "O1")) := by
  refine ⟨?_, rfl, rfl, rfl⟩
  have h : ∀ fs : List FirmModel,
      graphEntities idBase (offices_by_firm offices) fs = fs.flatMap fun f =>
        build_firm_entity idBase f
            ((officesOf offices f).map (build_office_entity idBase)) ::
          (officesOf offices f).map (build_office_entity idBase) := by
    intro fs
    induction fs with
    | nil => rfl
    | cons f rest ih => simp [graphEntities, ih, firmOfficeEntities_eq]
  rw [build_jsonld_graph, h]

/-- C2 counterexample: in the built graph for the spec's example, the firm
entity's `offices` member holds the full office entity object — which is
neither the office's bare identifier string nor an `@id`-only reference
object — so the firm does not carry a list of its offices' identifiers. -/
theorem firm_offices_member_not_identifier_list :
    jget (build_firm_entity "https://api.veritrustgroup.org/id/" exFirm
        [build_office_entity "https://api.veritrustgroup.org/id/" exOffice])
      "offices" = some (.arr
        [build_office_entity "https://api.veritrustgroup.org/id/" exOffice]) ∧
    build_office_entity "https://api.veritrustgroup.org/id/" exOffice ≠
      .str (iriOffice "https://api.veritrustgroup.org/id/" "O1") ∧
    build_office_entity "https://api.veritrustgroup.org/id/" exOffice ≠
      .obj [("@id", .str (iriOffice "https://api.veritrustgroup.org/id/" "O1"))] :=
  ⟨rfl, by decide, by decide⟩

theorem office_entity_ne_firm_entity (idB : String) (o : OfficeModel)
    (f : FirmModel) (ents : List Json) :
    build_office_entity idB o ≠ build_firm_entity idB f ents := by
  simp [build_office_entity, build_firm_entity]

theorem build_office_entity_firmSraId {idB : String} {o o' : OfficeModel}
    (h : build_office_entity idB o = build_office_entity idB o') :
    o.firmSraId = o'.firmSraId := by
  simp [build_office_entity] at h
  exact iriFirm_inj h.2.2.1

theorem not_mem_firmOfficeEntities (idB : String) (offices : List OfficeModel)
    {o : OfficeModel} {f : FirmModel} (hf : f.sraId ≠ o.firmSraId) :
    build_office_entity idB o ∉
      firmOfficeEntities idB (offices_by_firm offices) f := by
  rw [firmOfficeEntities_eq]
  intro hmem
  obtain ⟨o', ho', heq⟩ := List.mem_map.mp hmem
  have h1 : o'.firmSraId = f.sraId := by
    simpa using (List.mem_filter.mp ho').2
  exact hf (h1.symm.trans (build_office_entity_firmSraId heq))

/-- C3 (amended): an office whose `firmSraId` matches no firm in the batch is
not emitted at all — its entity occurs nowhere in `@graph` and in no firm
entity's `offices` list (the builder iterates over firms only, so unmatched
groups of the office index are dropped). -/
theorem orphan_office_dropped (idBase : String) (firms : List FirmModel)
    (offices : List OfficeModel) (o : OfficeModel)
    (horphan : ∀ f ∈ firms, f.sraId ≠ o.firmSraId) :
    build_office_entity idBase o ∉
      graphEntities idBase (offices_by_firm offices) firms ∧
    ∀ f ∈ firms, build_office_entity idBase o ∉
      firmOfficeEntities idBase (offices_by_firm offices) f := by
  induction firms with
  | nil => exact ⟨by simp [graphEntities], by simp⟩
  | cons f rest ih =>
    have hf := horphan f (List.mem_cons_self f rest)
    have ihr := ih fun g hg => horphan g (List.mem_cons_of_mem f hg)
    refine ⟨?_, ?_⟩
    · simp only [graphEntities, List.cons_append, List.mem_cons, List.mem_append]
      rintro (h | h)
      · exact office_entity_ne_firm_entity idBase o f _ h
      · rcases h with h | h
        · exact not_mem_firmOfficeEntities idBase offices hf h
        · exact ihr.1 h
    · intro g hg
      rcases List.mem_cons.mp hg with hg | hg
      · exact hg ▸ not_mem_firmOfficeEntities idBase offices hf
      · exact ihr.2 g hg

/-- C3 witness: concrete orphan office (`firmSraId = "F2"`, only firm is
`F1`): its entity occurs nowhere. -/
theorem orphan_office_dropped_witness :
    build_office_entity "https://api.veritrustgroup.org/id/"
        ⟨"O2", "F2", false, ⟨"S", "T", "P", "C"⟩⟩ ∉
      graphEntities "https://api.veritrustgroup.org/id/"
        (offices_by_firm [⟨"O2", "F2", false, ⟨"S", "T", "P", "C"⟩⟩]) [exFirm] ∧
    ∀ f ∈ [exFirm],
      build_office_entity "https://api.veritrustgroup.org/id/"
          ⟨"O2", "F2", false, ⟨"S", "T", "P", "C"⟩⟩ ∉
        firmOfficeEntities "https://api.veritrustgroup.org/id/"
          (offices_by_firm [⟨"O2", "F2", false, ⟨"S", "T", "P", "C"⟩⟩]) f :=
  orphan_office_dropped "https://api.veritrustgroup.org/id/" [exFirm]
    [⟨"O2", "F2", false, ⟨"S", "T", "P", "C"⟩⟩]
    ⟨"O2", "F2", false, ⟨"S", "T", "P", "C"⟩⟩ (by decide)

/-- C3 counterexample: with one firm `F1` and one orphan office (owner
`F2`), the built `@graph` holds exactly the firm entity — the orphan office
entity does not appear (in particular not exactly once, as claimed). -/
theorem orphan_office_not_emitted :
    jget (build_jsonld_graph "https://api.veritrustgroup.org/id/" [exFirm]
        [⟨"O2", "F2", false, ⟨"S", "T", "P", "C"⟩⟩]) "@graph" =
      some (.arr [build_firm_entity "https://api.veritrustgroup.org/id/"
        exFirm []]) ∧
    build_office_entity "https://api.veritrustgroup.org/id/"
        ⟨"O2", "F2", false, ⟨"S", "T", "P", "C"⟩⟩ ∉
      ([build_firm_entity "https://api.veritrustgroup.org/id/" exFirm []] :
        List Json) :=
  ⟨rfl, by decide⟩

/-! ### Normalization (`src/pipeline/normalize.py`) and record validation
(`src/pipeline/validate.py`) -/

/-- Python `str.split()` / `str.strip()` whitespace (the ASCII cases that
occur in this data). -/
def pyIsSpace (c : Char) : Bool :=
  c = ' ' || c = '\t' || c = '\n' || c = '\r' || c.toNat = 11 || c.toNat = 12

/-- Word splitter underlying Python's `str.split()` (no arguments): split on
whitespace runs, dropping empty fragments. -/
def wordsAux : List Char → List Char → List (List Char)
  | [], acc => if acc.isEmpty then [] else [acc.reverse]
  | c :: cs, acc =>
    if pyIsSpace c then
      if acc.isEmpty then wordsAux cs [] else acc.reverse :: wordsAux cs []
    else wordsAux cs (c :: acc)

/-- `str.split()`. -/
def pySplit (s : String) : List String := (wordsAux s.data []).map String.mk

/-- `" ".join(str(value).split())`. -/
def cleanStr (s : String) : String := String.intercalate " " (pySplit s)

/-- `_clean(value)` from `src/pipeline/normalize.py`: falsy input (absent
key or empty string) yields `""`, otherwise whitespace runs are collapsed. -/
def clean : Option String → String
  | none => ""
  | some s => if s = "" then "" else cleanStr s

/-- `str.strip()`. -/
def pyStrip (s : String) : String :=
  String.mk (((s.data.dropWhile pyIsSpace).reverse.dropWhile pyIsSpace).reverse)

/-- A raw SRA office record (`RawOfficeRecord` keys accessed via `.get`). -/
structure RawOffice where
  officeId : Option String
  officeType : Option String
  address1 : Option String
  address2 : Option String
  address3 : Option String
  address4 : Option String
  town : Option String
  postcode : Option String
  country : Option String
deriving DecidableEq

/-- A raw SRA firm record (`RawFirmRecord`); `offices` models
`rec.get("Offices") or []`. -/
structure RawRecord where
  id : Option String
  sraNumber : Option String
  practiceName : Option String
  authorisationStatus : Option String
  authorisationType : Option String
  organisationType : Option String
  companyRegNo : Option String
  constitution : Option String
  offices : List RawOffice
deriving DecidableEq

/-- `" ".join(p for p in [Address1..Address4] if p)`. -/
def joinTruthy (parts : List (Option String)) : String :=
  String.intercalate " " (parts.filterMap fun p =>
    match p with
    | some s => if s = "" then none else some s
    | none => none)

/-- The pydantic `NormalizedAddress` constructor: every field
`min_length=1`; a `ValidationError` is caught by `_build_address`, which
returns `None`. -/
def mkNormalizedAddress (s l p c : String) : Option NormalizedAddress :=
  if s ≠ "" ∧ l ≠ "" ∧ p ≠ "" ∧ c ≠ "" then some ⟨s, l, p, c⟩ else none

/-- `_build_address` from `src/pipeline/normalize.py`. -/
def buildAddress (o : RawOffice) : Option NormalizedAddress :=
  mkNormalizedAddress
    (clean (some (joinTruthy [o.address1, o.address2, o.address3, o.address4])))
    (clean o.town) (clean o.postcode) (clean o.country)

/-- The pydantic `NormalizedFirm` constructor: `sraId` and `name` have
`min_length=1`; the remaining fields are unconstrained strings. -/
def mkNormalizedFirm (sraId sraNumber name regulatoryStatus aType oType
    cReg const : String) : Option FirmModel :=
  if sraId ≠ "" ∧ name ≠ "" then
    some ⟨sraId, sraNumber, name, regulatoryStatus, aType, oType, cReg, const⟩
  else none

/-- The pydantic `NormalizedOffice` constructor: `officeId` and `firmSraId`
have `min_length=1` (the address was already validated). -/
def mkNormalizedOffice (officeId firmSraId : String) (isHead : Bool)
    (addr : NormalizedAddress) : Option OfficeModel :=
  if officeId ≠ "" ∧ firmSraId ≠ "" then
    some ⟨officeId, firmSraId, isHead, addr⟩
  else none

instance exceptDecEq {ε α : Type} [DecidableEq ε] [DecidableEq α] :
    DecidableEq (Except ε α)
  | .error e, .error f =>
    if h : e = f then isTrue (by rw [h])
    else isFalse fun hh => h (by cases hh; rfl)
  | .error _, .ok _ => isFalse fun hh => by cases hh
  | .ok _, .error _ => isFalse fun hh => by cases hh
  | .ok x, .ok y =>
    if h : x = y then isTrue (by rw [h])
    else isFalse fun hh => h (by cases hh; rfl)

/-- The inner office loop of `normalise_records`: blank `OfficeId` and
invalid addresses are skipped (`continue`); a `ValidationError` from the
`NormalizedOffice` constructor is logged and re-raised (`.error`).
`isHeadOffice` compares the raw `OfficeType` value with the configured head
office code. -/
def normOffices (headOffice firmId : String) :
    List RawOffice → Except String (List OfficeModel)
  | [] => .ok []
  | office :: rest =>
    let officeId := clean office.officeId
    if officeId = "" then normOffices headOffice firmId rest
    else
      match buildAddress office with
      | none => normOffices headOffice firmId rest
      | some addr =>
        match mkNormalizedOffice officeId firmId
            (office.officeType == some headOffice) addr with
        | none => .error "ValidationError"
        | some off => do
          let os ← normOffices headOffice firmId rest
          .ok (off :: os)

/-- `normalise_records` from `src/pipeline/normalize.py`: records with a
blank cleaned `Id` are skipped (including their offices); a
`ValidationError` from the `NormalizedFirm` constructor is logged and
re-raised, aborting the batch (`.error`). -/
def normalise_records (headOffice : String) :
    List RawRecord → Except String (List FirmModel × List OfficeModel)
  | [] => .ok ([], [])
  | rec :: rest =>
    let firmId := clean rec.id
    if firmId = "" then normalise_records headOffice rest
    else
      match mkNormalizedFirm firmId (clean rec.sraNumber)
          (clean rec.practiceName) (clean rec.authorisationStatus)
          (clean rec.authorisationType) (clean rec.organisationType)
          (clean rec.companyRegNo) (clean rec.constitution) with
      | none => .error "ValidationError"
      | some firm => do
        let offs ← normOffices headOffice firmId rec.offices
        let (fs, os) ← normalise_records headOffice rest
        .ok (firm :: fs, offs ++ os)

theorem normOffices_cons_blank {ho fid : String} {office : RawOffice}
    {rest : List RawOffice} (h : clean office.officeId = "") :
    normOffices ho fid (office :: rest) = normOffices ho fid rest := by
  rw [normOffices]
  simp [h]

theorem normOffices_cons_noaddr {ho fid : String} {office : RawOffice}
    {rest : List RawOffice} (h1 : clean office.officeId ≠ "")
    (h2 : buildAddress office = none) :
    normOffices ho fid (office :: rest) = normOffices ho fid rest := by
  rw [normOffices]
  simp [h1, h2]

theorem normOffices_cons_invalid {ho fid : String} {office : RawOffice}
    {rest : List RawOffice} {addr : NormalizedAddress}
    (h1 : clean office.officeId ≠ "") (h2 : buildAddress office = some addr)
    (h3 : mkNormalizedOffice (clean office.officeId) fid
      (office.officeType == some ho) addr = none) :
    normOffices ho fid (office :: rest) = .error "ValidationError" := by
  rw [normOffices]
  simp [h1, h2, h3]

theorem normOffices_cons_valid {ho fid : String} {office : RawOffice}
    {rest : List RawOffice} {addr : NormalizedAddress} {off : OfficeModel}
    (h1 : clean office.officeId ≠ "") (h2 : buildAddress office = some addr)
    (h3 : mkNormalizedOffice (clean office.officeId) fid
      (office.officeType == some ho) addr = some off) :
    normOffices ho fid (office :: rest) =
      match normOffices ho fid rest with
      | .error e => .error e
      | .ok os => .ok (off :: os) := by
  rw [normOffices]
  simp only [h1, if_neg, h2, h3]
  rcases normOffices ho fid rest with e | os <;> rfl

theorem normalise_cons_blank {ho : String} {rec : RawRecord}
    {rest : List RawRecord} (h : clean rec.id = "") :
    normalise_records ho (rec :: rest) = normalise_records ho rest := by
  rw [normalise_records]
  simp [h]

theorem normalise_cons_invalid {ho : String} {rec : RawRecord}
    {rest : List RawRecord} (h1 : clean rec.id ≠ "")
    (h2 : mkNormalizedFirm (clean rec.id) (clean rec.sraNumber)
      (clean rec.practiceName) (clean rec.authorisationStatus)
      (clean rec.authorisationType) (clean rec.organisationType)
      (clean rec.companyRegNo) (clean rec.constitution) = none) :
    normalise_records ho (rec :: rest) = .error "ValidationError" := by
  rw [normalise_records]
  simp [h1, h2]

theorem normalise_cons_valid {ho : String} {rec : RawRecord}
    {rest : List RawRecord} {firm : FirmModel}
    (h1 : clean rec.id ≠ "")
    (h2 : mkNormalizedFirm (clean rec.id) (clean rec.sraNumber)
      (clean rec.practiceName) (clean rec.authorisationStatus)
      (clean rec.authorisationType) (clean rec.organisationType)
      (clean rec.companyRegNo) (clean rec.constitution) = some firm) :
    normalise_records ho (rec :: rest) =
      match normOffices ho (clean rec.id) rec.offices with
      | .error e => .error e
      | .ok offs =>
        match normalise_records ho rest with
        | .error e => .error e
        | .ok (fs, os) => .ok (firm :: fs, offs ++ os) := by
  rw [normalise_records]
  simp only [h1, if_neg, h2]
  rcases normOffices ho (clean rec.id) rec.offices with e | offs
  · rfl
  · rcases normalise_records ho rest with e | ⟨fs, os⟩ <;> rfl

/-- Python truthiness of a JSON value (for `o.get("address") or` the empty
dict). -/
def pyFalsy : Json → Bool
  | .null => true
  | .bool b => !b
  | .num i => i == 0
  | .str s => s = ""
  | .arr l => l.isEmpty
  | .obj l => l.isEmpty

/-- `value or default`. -/
def orDefault (v : Option Json) (d : Json) : Json :=
  match v with
  | none => d
  | some x => if pyFalsy x then d else x

/-- `_str_ok` from `src/pipeline/validate.py`: a string whose strip is
non-empty. -/
def strOk : Option Json → Bool
  | some (.str s) => pyStrip s ≠ ""
  | _ => false

/-- The three firm checks of `validate_records` (each failing one
`continue`s, so a firm is kept iff all pass). -/
def firmOk (f : Json) : Bool :=
  strOk (jget f "sraId") && strOk (jget f "name") &&
    strOk (jget f "regulatoryStatus")

/-- The office checks of `validate_records` (`addr = o.get("address") or`
the empty dict). -/
def officeOk (o : Json) : Bool :=
  strOk (jget o "officeId") && strOk (jget o "firmSraId") &&
    strOk (jget (orDefault (jget o "address") (.obj [])) "streetAddress")

/-- The firm loop of `validate_records`. -/
def validFirms : List Json → List Json
  | [] => []
  | f :: rest => if firmOk f then f :: validFirms rest else validFirms rest

/-- The office loop of `validate_records`. -/
def validOffices : List Json → List Json
  | [] => []
  | o :: rest => if officeOk o then o :: validOffices rest else validOffices rest

/-- `validate_records` from `src/pipeline/validate.py` (records are the
dict-shaped `NormalizedFirm` / `NormalizedOffice` `TypedDict`s). -/
def validate_records (firms offices : List Json) : List Json × List Json :=
  (validFirms firms, validOffices offices)

theorem validFirms_eq_filter (firms : List Json) :
    validFirms firms = firms.filter firmOk := by
  induction firms with
  | nil => rfl
  | cons f rest ih => by_cases h : firmOk f <;> simp [validFirms, h, ih]

theorem validOffices_eq_filter (offices : List Json) :
    validOffices offices = offices.filter officeOk := by
  induction offices with
  | nil => rfl
  | cons o rest ih => by_cases h : officeOk o <;> simp [validOffices, h, ih]

theorem normOffices_ok {headOffice firmId : String} (hf : firmId ≠ "") :
    ∀ l : List RawOffice, ∃ offs, normOffices headOffice firmId l = .ok offs := by
  intro l
  induction l with
  | nil => exact ⟨[], rfl⟩
  | cons office rest ih =>
    obtain ⟨offs, hoffs⟩ := ih
    by_cases hid : clean office.officeId = ""
    · exact ⟨offs, (normOffices_cons_blank hid).trans hoffs⟩
    · rcases haddr : buildAddress office with _ | addr
      · exact ⟨offs, (normOffices_cons_noaddr hid haddr).trans hoffs⟩
      · have hmk : mkNormalizedOffice (clean office.officeId) firmId
            (office.officeType == some headOffice) addr =
              some ⟨clean office.officeId, firmId,
                office.officeType == some headOffice, addr⟩ := by
          rw [mkNormalizedOffice, if_pos ⟨hid, hf⟩]
        exact ⟨_, by rw [normOffices_cons_valid hid haddr hmk, hoffs]⟩

/-- C8 (amended): `validate_records` never raises — it is pure filtering
over the input (so all remaining records are processed and an empty result
is valid) — and `normalise_records` skips records with a blank `Id` and
offices with a blank `OfficeId` or invalid address without raising; but a
record whose `Id` is non-empty while its cleaned `PracticeName` is empty
makes the `NormalizedFirm` constructor fail, and `normalise_records`
re-raises that `ValidationError`, aborting the whole batch.  When no such
record exists, normalization succeeds. -/
theorem validate_filters_normalise_raises_on_blank_name :
    (∀ firms offices : List Json,
      validate_records firms offices =
        (firms.filter firmOk, offices.filter officeOk)) ∧
    (∀ (headOffice : String) (records : List RawRecord),
      (∀ r ∈ records, clean r.id ≠ "" → clean r.practiceName ≠ "") →
      ∃ out, normalise_records headOffice records = .ok out) := by
  constructor
  · intro firms offices
    rw [validate_records, validFirms_eq_filter, validOffices_eq_filter]
  · intro headOffice records hgood
    induction records with
    | nil => exact ⟨([], []), rfl⟩
    | cons rec rest ih =>
      obtain ⟨out, hout⟩ := ih fun r hr => hgood r (List.mem_cons_of_mem rec hr)
      by_cases hid : clean rec.id = ""
      · exact ⟨out, (normalise_cons_blank hid).trans hout⟩
      · have hname : clean rec.practiceName ≠ "" :=
          hgood rec (List.mem_cons_self rec rest) hid
        obtain ⟨offs, hoffs⟩ := normOffices_ok hid rec.offices
        obtain ⟨fs, os⟩ := out
        have hfirm : mkNormalizedFirm (clean rec.id) (clean rec.sraNumber)
            (clean rec.practiceName) (clean rec.authorisationStatus)
            (clean rec.authorisationType) (clean rec.organisationType)
            (clean rec.companyRegNo) (clean rec.constitution) =
              some ⟨clean rec.id, clean rec.sraNumber, clean rec.practiceName,
                clean rec.authorisationStatus, clean rec.authorisationType,
                clean rec.organisationType, clean rec.companyRegNo,
                clean rec.constitution⟩ := by
          rw [mkNormalizedFirm, if_pos ⟨hid, hname⟩]
        exact ⟨_, by rw [normalise_cons_valid hid hfirm, hoffs, hout]⟩

/-- C8 witness: `validate_records` filters a concrete batch (keeping valid
records, discarding none here), and a concrete good batch normalizes without
an exception. -/
theorem validate_filters_normalise_witness :
    (validate_records
        [Json.obj [("sraId", .str "F1"), ("name", .str "Firm One"),
            ("regulatoryStatus", .str "Active")],
          Json.obj [("sraId", .str " "), ("name", .str "Bad"),
            ("regulatoryStatus", .str "Active")]] [] =
      ([Json.obj [("sraId", .str "F1"), ("name", .str "Firm One"),
          ("regulatoryStatus", .str "Active")],
        Json.obj [("sraId", .str " "), ("name", .str "Bad"),
          ("regulatoryStatus", .str "Active")]].filter firmOk, [])) ∧
    ∃ out, normalise_records "HEAD OFFICE"
        [⟨some "F1", none, some " Firm  One ", some "Active", none, none,
          none, none, []⟩] = .ok out :=
  ⟨validate_filters_normalise_raises_on_blank_name.1 _ [],
    validate_filters_normalise_raises_on_blank_name.2 "HEAD OFFICE"
      [⟨some "F1", none, some " Firm  One ", some "Active", none, none,
        none, none, []⟩] (by decide)⟩

/-- C8 counterexample: a batch with a single structurally invalid firm
record (non-blank `Id`, missing `PracticeName`) makes `normalise_records`
raise `ValidationError` instead of discarding the record. -/
theorem normalise_raises_on_blank_name :
    normalise_records "HEAD OFFICE"
      [⟨some "F1", none, none, some "Active", none, none, none, none, []⟩] =
      .error "ValidationError" := by
  decide

theorem normOffices_ok_firmId {headOffice firmId : String} :
    ∀ {l : List RawOffice} {offs : List OfficeModel},
      normOffices headOffice firmId l = .ok offs →
      ∀ o ∈ offs, o.firmSraId = firmId := by
  intro l
  induction l with
  | nil =>
    intro offs h o ho
    rw [normOffices] at h
    cases h
    cases ho
  | cons office rest ih =>
    intro offs h o ho
    by_cases hid : clean office.officeId = ""
    · rw [normOffices_cons_blank hid] at h
      exact ih h o ho
    · rcases haddr : buildAddress office with _ | addr
      · rw [normOffices_cons_noaddr hid haddr] at h
        exact ih h o ho
      · rcases hmk : mkNormalizedOffice (clean office.officeId) firmId
            (office.officeType == some headOffice) addr with _ | off
        · rw [normOffices_cons_invalid hid haddr hmk] at h
          cases h
        · rw [normOffices_cons_valid hid haddr hmk] at h
          rcases hrest : normOffices headOffice firmId rest with e | os <;>
            rw [hrest] at h
          · cases h
          · cases h
            rcases List.mem_cons.mp ho with ho | ho
            · have hoff : off.firmSraId = firmId := by
                rw [mkNormalizedOffice] at hmk
                split at hmk
                · cases hmk; rfl
                · cases hmk
              rw [ho, hoff]
            · exact ih hrest o ho

/-- C10: on every successful return of `normalise_records`, each returned
office's `firmSraId` equals the `sraId` of some returned firm — offices are
only constructed inside the iteration of a firm that was itself appended, so
normalization alone cannot produce an orphan office. -/
theorem normalise_records_no_orphans (headOffice : String)
    (records : List RawRecord) (firms : List FirmModel)
    (offices : List OfficeModel)
    (h : normalise_records headOffice records = .ok (firms, offices)) :
    ∀ o ∈ offices, ∃ f ∈ firms, f.sraId = o.firmSraId := by
  induction records generalizing firms offices with
  | nil =>
    rw [normalise_records] at h
    cases h
    intro o ho
    cases ho
  | cons rec rest ih =>
    by_cases hid : clean rec.id = ""
    · rw [normalise_cons_blank hid] at h
      exact ih _ _ h
    · rcases hfirm : mkNormalizedFirm (clean rec.id) (clean rec.sraNumber)
          (clean rec.practiceName) (clean rec.authorisationStatus)
          (clean rec.authorisationType) (clean rec.organisationType)
          (clean rec.companyRegNo) (clean rec.constitution) with _ | firm
      · rw [normalise_cons_invalid hid hfirm] at h
        cases h
      · rw [normalise_cons_valid hid hfirm] at h
        rcases hoffs : normOffices headOffice (clean rec.id) rec.offices
            with e | offs <;> rw [hoffs] at h
        · cases h
        · rcases hrest : normalise_records headOffice rest with e | p <;>
            rw [hrest] at h
          · cases h
          · obtain ⟨fs, os⟩ := p
            cases h
            intro o ho
            rcases List.mem_append.mp ho with ho | ho
            · refine ⟨firm, List.mem_cons_self firm fs, ?_⟩
              have h1 : firm.sraId = clean rec.id := by
                rw [mkNormalizedFirm] at hfirm
                split at hfirm
                · cases hfirm; rfl
                · cases hfirm
              rw [h1, normOffices_ok_firmId hoffs o ho]
            · obtain ⟨f, hf, hfs⟩ := ih _ _ hrest o ho
              exact ⟨f, List.mem_cons_of_mem firm hf, hfs⟩

/-- C10 witness: a concrete raw batch with one firm and one office
normalizes successfully, and the returned office's owner is among the
returned firms. -/
theorem normalise_records_no_orphans_witness :
    ∃ f ∈ [(⟨"F1", "", "Firm One", "Active", "", "", "", ""⟩ : FirmModel)],
      f.sraId = (⟨"O1", "F1", true, ⟨"A", "T", "P", "UK"⟩⟩ : OfficeModel).firmSraId :=
  normalise_records_no_orphans "HEAD OFFICE"
    [⟨some "F1", none, some "Firm One", some "Active", none, none, none, none,
      [⟨some "O1", some "HEAD OFFICE", some "A", none, none, none, some "T",
        some "P", some "UK"⟩]⟩]
    [⟨"F1", "", "Firm One", "Active", "", "", "", ""⟩]
    [⟨"O1", "F1", true, ⟨"A", "T", "P", "UK"⟩⟩] (by decide)
    ⟨"O1", "F1", true, ⟨"A", "T", "P", "UK"⟩⟩ (List.mem_cons_self _ _)

/-! ### Manifest assembly and signing (`src/pipeline/manifest_builder.py`) -/

/-- `Path.name`: the final path component (basename). -/
def baseName (p : String) : String :=
  String.mk ((p.data.reverse.takeWhile fun c => c != '/').reverse)

/-- `_file_sha256`: stream the file in 8192-byte chunks into the digest.
By `chunksOf_join`, this hexdigest equals the digest of the raw bytes. -/
def file_sha256 (bytes : List Nat) : String :=
  sha256hex (chunksOf 8192 bytes).flatten

/-- A loaded RSA private key as the signing primitive consumes it: modulus
and private exponent.  (`_try_load_private_key` treats the credential as
opaque; parsing is modelled by the `parsePem` parameter below.) -/
structure RSAKey where
  n : Nat
  d : Nat
deriving DecidableEq

/-- `_try_load_private_key`: unset or empty `VT_PRIVATE_KEY_PEM` is falsy
(warn, return `None`); material that fails to parse is logged and also
yields `None`. -/
def try_load_private_key (env : Option String)
    (parsePem : String → Option RSAKey) : Option RSAKey :=
  match env with
  | none => none
  | some pem => if pem = "" then none else parsePem pem

/-- The ASN.1 `DigestInfo` prefix for SHA-256 in EMSA-PKCS1-v1_5. -/
def sha256DigestInfo : List Nat :=
  [0x30, 0x31, 0x30, 0x0d, 0x06, 0x09, 0x60, 0x86, 0x48, 0x01, 0x65, 0x03,
   0x04, 0x02, 0x01, 0x05, 0x00, 0x04, 0x20]

/-- SHA-256 digest as 32 raw bytes. -/
def sha256Bytes (msg : List Nat) : List Nat :=
  ((sha256Words msg).map (toBytesBE 4)).flatten

/-- Big-endian byte-list to integer (OS2IP). -/
def bytesToNat (l : List Nat) : Nat :=
  l.foldl (fun acc b => acc * 256 + b) 0

/-- Byte length of the modulus. -/
def byteLen (n : Nat) : Nat := Nat.log 256 n + 1

/-- EMSA-PKCS1-v1_5 encoding (`0x00 0x01 FF.. 0x00 DigestInfo digest`),
`k` bytes wide. -/
def emsaPkcs1v15 (k : Nat) (msg : List Nat) : List Nat :=
  let t := sha256DigestInfo ++ sha256Bytes msg
  [0, 1] ++ List.replicate (k - t.length - 3) 255 ++ [0] ++ t

/-- `_sign_bytes`: `private_key.sign(data, padding.PKCS1v15(),
hashes.SHA256()).hex()` — the PKCS#1 v1.5 RSA signature of the message,
rendered as `2k` lower-case hex characters.  (For the RSA keys the loader
accepts, the modulus is far larger than the 62-byte padding minimum.) -/
def rsa_sign_hex (key : RSAKey) (msg : List Nat) : String :=
  let k := byteLen key.n
  String.mk (hexNat (2 * k) (bytesToNat (emsaPkcs1v15 k msg) ^ key.d % key.n))

/-- One `files_info` entry: artifact basename, streamed SHA-256 hexdigest,
and `st_size` (the file's byte length). -/
def fileEntry (p : String) (bytes : List Nat) : Json :=
  Json.obj [("path", .str (baseName p)), ("sha256", .str (file_sha256 bytes)),
    ("sizeInBytes", .num bytes.length)]

/-- The `files_info` loop of `build_manifest_and_sign`: paths missing on
disk are skipped with a warning, existing ones produce one entry each. -/
def filesInfo (fs : FS) : List String → List Json
  | [] => []
  | p :: rest =>
    match fsGet fs p with
    | none => filesInfo fs rest
    | some bytes => fileEntry p bytes :: filesInfo fs rest

/-- The manifest document before the optional signature is embedded. -/
def manifestBase (fs : FS) (firmsPath datasetPath nowIso : String) : Json :=
  Json.obj [
    ("@context", .arr [.str "https://schema.org/",
      .str "https://veritrustgroup.org/def/tier0/"]),
    ("@id", .str "https://api.veritrustgroup.org/manifest/tier0-sra"),
    ("@type", .str "Dataset"),
    ("name", .str "VeriTrust Tier‑0 SRA Manifest"),
    ("dateModified", .str nowIso),
    ("distribution", .arr (filesInfo fs [firmsPath, datasetPath]))]

/-- `manifest["vt:signature"] = ...`: Python dict insertion appends the new
key after the existing ones. -/
def addSignature (m sig : Json) : Json :=
  match m with
  | .obj l => .obj (l ++ [("vt:signature", sig)])
  | j => j

/-- `build_manifest_and_sign` from `src/pipeline/manifest_builder.py`:
collect file info, canonicalize the (unsigned) manifest, optionally sign
those canonical bytes and embed the hex signature, then write atomically.
Returns the written file system and the manifest document (the source
returns `None`; the document is returned here so theorems can speak about
it). -/
def build_manifest_and_sign (fs : FS)
    (firmsPath datasetPath manifestOutputPath nowIso : String)
    (env : Option String) (parsePem : String → Option RSAKey)
    (failAt : Option WStep) (partialBytes : List Nat) :
    Except FS (FS × Json) :=
  let manifest := manifestBase fs firmsPath datasetPath nowIso
  let canonicalJson := utf8Bytes (canon manifest)
  let signed :=
    match try_load_private_key env parsePem with
    | some key => addSignature manifest (Json.obj
        [("algorithm", .str "RSA-SHA256"),
         ("value", .str (rsa_sign_hex key canonicalJson))])
    | none => manifest
  match atomic_write_json fs manifestOutputPath signed failAt partialBytes with
  | .error fs' => .error fs'
  | .ok fs' => .ok (fs', signed)

theorem filesInfo_cons_some {fs : FS} {p : String} {b : List Nat}
    (rest : List String) (h : fsGet fs p = some b) :
    filesInfo fs (p :: rest) = fileEntry p b :: filesInfo fs rest := by
  rw [filesInfo, h]

theorem filesInfo_cons_none {fs : FS} {p : String} (rest : List String)
    (h : fsGet fs p = none) :
    filesInfo fs (p :: rest) = filesInfo fs rest := by
  rw [filesInfo, h]

/-- C7: every distribution entry of an artifact that exists on disk carries
the file's basename, the 64-hex-character SHA-256 digest of its raw bytes
(streaming in 8 KiB chunks is byte-equivalent to whole-buffer hashing), and
a `sizeInBytes` equal to the byte length; a missing path is skipped without
an error and contributes no entry; with both files present the distribution
list has exactly the two entries. -/
theorem manifest_distribution_entries (fs : FS) (p1 p2 : String)
    (b : List Nat) :
    fileEntry p1 b = Json.obj [("path", .str (baseName p1)),
      ("sha256", .str (sha256hex b)), ("sizeInBytes", .num b.length)] ∧
    (sha256hex b).length = 64 ∧
    (∀ c ∈ (sha256hex b).data, c ∈ hexAlphabet) ∧
    (∀ b1 b2, fsGet fs p1 = some b1 → fsGet fs p2 = some b2 →
      filesInfo fs [p1, p2] = [fileEntry p1 b1, fileEntry p2 b2] ∧
      (filesInfo fs [p1, p2]).length = 2) ∧
    (fsGet fs p1 = none → filesInfo fs [p1, p2] = filesInfo fs [p2]) ∧
    (fsGet fs p2 = none → filesInfo fs [p1, p2] = filesInfo fs [p1]) := by
  refine ⟨?_, sha256hex_length b, sha256hex_chars b, ?_, ?_, ?_⟩
  · rw [fileEntry, file_sha256, chunksOf_join 8192 (by omega)]
  · intro b1 b2 h1 h2
    rw [filesInfo_cons_some _ h1, filesInfo_cons_some _ h2]
    exact ⟨rfl, rfl⟩
  · intro h1
    rw [filesInfo_cons_none _ h1]
  · intro h2
    rcases hg : fsGet fs p1 with _ | b1
    · rw [filesInfo_cons_none _ hg, filesInfo_cons_none _ h2,
        filesInfo_cons_none [] hg]
    · rw [filesInfo_cons_some _ hg, filesInfo_cons_none _ h2,
        filesInfo_cons_some [] hg]

/-- C7 witness: a concrete file system with both artifacts present, and one
with the dataset file missing. -/
theorem manifest_distribution_entries_witness :
    (filesInfo [("norm/firms.jsonld", [1, 2, 3]), ("norm/dataset.jsonld", [4, 5])]
        ["norm/firms.jsonld", "norm/dataset.jsonld"] =
      [fileEntry "norm/firms.jsonld" [1, 2, 3],
       fileEntry "norm/dataset.jsonld" [4, 5]]) ∧
    (filesInfo [("norm/firms.jsonld", [1, 2, 3]), ("norm/dataset.jsonld", [4, 5])]
        ["norm/firms.jsonld", "norm/dataset.jsonld"]).length = 2 ∧
    (sha256hex [1, 2, 3]).length = 64 ∧
    filesInfo [("norm/firms.jsonld", [1, 2, 3])]
        ["norm/firms.jsonld", "norm/dataset.jsonld"] =
      filesInfo [("norm/firms.jsonld", [1, 2, 3])] ["norm/firms.jsonld"] := by
  have h := manifest_distribution_entries
    [("norm/firms.jsonld", [1, 2, 3]), ("norm/dataset.jsonld", [4, 5])]
    "norm/firms.jsonld" "norm/dataset.jsonld" [1, 2, 3]
  have h2 := (h.2.2.2.1 [1, 2, 3] [4, 5] rfl rfl)
  have h3 := manifest_distribution_entries [("norm/firms.jsonld", [1, 2, 3])]
    "norm/firms.jsonld" "norm/dataset.jsonld" [1, 2, 3]
  exact ⟨h2.1, h2.2, h.2.1, h3.2.2.2.2.2 rfl⟩

/-- C5: with a usable signing credential, the written manifest contains a
`vt:signature` object whose `algorithm` is `"RSA-SHA256"` and whose `value`
is the hex RSA PKCS#1 v1.5-over-SHA-256 signature of the canonical UTF-8
bytes (sorted keys, minimal separators) of the manifest as it was before
the signature was embedded. -/
theorem manifest_signed (fs : FS)
    (firmsPath datasetPath outPath nowIso : String) (env : Option String)
    (parsePem : String → Option RSAKey) (key : RSAKey)
    (partialBytes : List Nat)
    (hkey : try_load_private_key env parsePem = some key) :
    let base := manifestBase fs firmsPath datasetPath nowIso
    let sig := Json.obj [("algorithm", .str "RSA-SHA256"),
      ("value", .str (rsa_sign_hex key (utf8Bytes (canon base))))]
    ∃ fs', build_manifest_and_sign fs firmsPath datasetPath outPath nowIso
        env parsePem none partialBytes = .ok (fs', addSignature base sig) ∧
      jget (addSignature base sig) "vt:signature" = some sig ∧
      fsGet fs' outPath = some (dumpBytes (addSignature base sig)) := by
  intro base sig
  refine ⟨fsSet (fsRemove (fsSet fs (tmpPath outPath)
      (dumpBytes (addSignature base sig))) (tmpPath outPath)) outPath
      (dumpBytes (addSignature base sig)), ?_, ?_, fsGet_set_self _ _ _⟩
  · rw [build_manifest_and_sign, hkey]
    rfl
  · rfl

/-- C5 witness: a concrete parse result yields a signed manifest whose
`vt:signature` member is exactly the algorithm/value object and whose
serialization is the written file. -/
theorem manifest_signed_witness :
    let base := manifestBase [] "norm/firms.jsonld" "norm/dataset.jsonld"
      "2025-01-01T00:00:00+00:00"
    let sig := Json.obj [("algorithm", .str "RSA-SHA256"),
      ("value", .str (rsa_sign_hex ⟨3233, 2753⟩ (utf8Bytes (canon base))))]
    ∃ fs', build_manifest_and_sign [] "norm/firms.jsonld" "norm/dataset.jsonld"
        "norm/manifest.jsonld" "2025-01-01T00:00:00+00:00"
        (some "PEM") (fun _ => some ⟨3233, 2753⟩) none [] =
      .ok (fs', addSignature base sig) ∧
      jget (addSignature base sig) "vt:signature" = some sig ∧
      fsGet fs' "norm/manifest.jsonld" = some (dumpBytes (addSignature base sig)) :=
  manifest_signed [] "norm/firms.jsonld" "norm/dataset.jsonld"
    "norm/manifest.jsonld" "2025-01-01T00:00:00+00:00" (some "PEM")
    (fun _ => some ⟨3233, 2753⟩) ⟨3233, 2753⟩ [] rfl

/-- C6: with no usable signing credential — the variable unset, empty, or
its material failing to parse — manifest generation still succeeds, the
behaviour is identical to the credential-absent run, and the written
manifest document has no `vt:signature` key. -/
theorem manifest_unsigned_fallback (fs : FS)
    (firmsPath datasetPath outPath nowIso : String) (env : Option String)
    (parsePem : String → Option RSAKey) (partialBytes : List Nat)
    (hkey : try_load_private_key env parsePem = none) :
    try_load_private_key none parsePem = none ∧
    try_load_private_key (some "") parsePem = none ∧
    (∀ pem, parsePem pem = none →
      try_load_private_key (some pem) parsePem = none) ∧
    ∃ fs', build_manifest_and_sign fs firmsPath datasetPath outPath nowIso
        env parsePem none partialBytes =
      .ok (fs', manifestBase fs firmsPath datasetPath nowIso) ∧
      jget (manifestBase fs firmsPath datasetPath nowIso) "vt:signature" =
        none ∧
      build_manifest_and_sign fs firmsPath datasetPath outPath nowIso
          env parsePem none partialBytes =
        build_manifest_and_sign fs firmsPath datasetPath outPath nowIso
          none parsePem none partialBytes := by
  refine ⟨rfl, ?_, ?_,
    fsSet (fsRemove (fsSet fs (tmpPath outPath)
        (dumpBytes (manifestBase fs firmsPath datasetPath nowIso)))
      (tmpPath outPath)) outPath
      (dumpBytes (manifestBase fs firmsPath datasetPath nowIso)),
    ?_, ?_, ?_⟩
  · rw [try_load_private_key, if_pos rfl]
  · intro pem hpem
    rw [try_load_private_key]
    by_cases h : pem = "" <;> simp [h, hpem]
  · rw [build_manifest_and_sign, hkey]
    rfl
  · rfl
  · rw [build_manifest_and_sign, hkey, build_manifest_and_sign]
    rfl

/-- C6 witness: unparsable credential material behaves exactly like an
absent credential and the manifest carries no signature. -/
theorem manifest_unsigned_fallback_witness :
    try_load_private_key none (fun _ => none) = none ∧
    try_load_private_key (some "") (fun _ => none) = none ∧
    (∀ pem, (fun _ : String => (none : Option RSAKey)) pem = none →
      try_load_private_key (some pem) (fun _ => none) = none) ∧
    ∃ fs', build_manifest_and_sign [] "norm/firms.jsonld" "norm/dataset.jsonld"
        "norm/manifest.jsonld" "2025-01-01T00:00:00+00:00"
        (some "not a key") (fun _ => none) none [] =
      .ok (fs', manifestBase [] "norm/firms.jsonld" "norm/dataset.jsonld"
        "2025-01-01T00:00:00+00:00") ∧
      jget (manifestBase [] "norm/firms.jsonld" "norm/dataset.jsonld"
        "2025-01-01T00:00:00+00:00") "vt:signature" = none ∧
      build_manifest_and_sign [] "norm/firms.jsonld" "norm/dataset.jsonld"
          "norm/manifest.jsonld" "2025-01-01T00:00:00+00:00"
          (some "not a key") (fun _ => none) none [] =
        build_manifest_and_sign [] "norm/firms.jsonld" "norm/dataset.jsonld"
          "norm/manifest.jsonld" "2025-01-01T00:00:00+00:00"
          none (fun _ => none) none [] :=
  manifest_unsigned_fallback [] "norm/firms.jsonld" "norm/dataset.jsonld"
    "norm/manifest.jsonld" "2025-01-01T00:00:00+00:00" (some "not a key")
    (fun _ => none) [] rfl

/-! ### The full build (`build_and_save_jsonld` from
`src/pipeline/jsonld_builder.py` followed by `build_manifest_and_sign`),
for the run-to-run determinism claim -/

/-- The dataset descriptor document built by `build_and_save_jsonld`
(insertion order; `contentUrl` is `_public_url` of the firms artifact). -/
def datasetDoc (firmsOutputPath publicFilesBase nowIso firmsHash : String) : Json :=
  Json.obj [
    ("@context", .str "https://schema.org/"),
    ("@id", .str "https://api.veritrustgroup.org/dataset/tier0-sra"),
    ("@type", .str "Dataset"),
    ("name", .str "VeriTrust Tier‑0 SRA Canonical Dataset"),
    ("description", .str ("Nightly canonical transformation of SRA public "
      ++ "organisation data into AI‑ready JSON‑LD.")),
    ("creator", .obj [("@type", .str "Organization"),
      ("name", .str "VeriTrust Group Limited")]),
    ("dateModified", .str nowIso),
    ("distribution", .arr [Json.obj [
      ("@type", .str "DataDownload"),
      ("contentUrl", .str (publicFilesBase ++ baseName firmsOutputPath)),
      ("encodingFormat", .str "application/ld+json")]]),
    ("canonicalSha256", .str firmsHash)]

/-- A successful atomic JSON write (`failAt = none` always returns `.ok`). -/
def writeOk (fs : FS) (p : String) (d : Json) : FS :=
  match atomic_write_json fs p d none [] with
  | .ok fs' => fs'
  | .error fs' => fs'

theorem fsGet_writeOk_self (fs : FS) (p : String) (d : Json) :
    fsGet (writeOk fs p d) p = some (dumpBytes d) :=
  fsGet_set_self _ _ _

theorem fsGet_writeOk_ne (fs : FS) {p q : String} (d : Json)
    (hq1 : q ≠ p) (hq2 : q ≠ tmpPath p) :
    fsGet (writeOk fs p d) q = fsGet fs q := by
  show fsGet (fsSet (fsRemove (fsSet fs (tmpPath p) (dumpBytes d)) (tmpPath p))
    p (dumpBytes d)) q = fsGet fs q
  rw [fsGet_set_ne _ (Ne.symm hq1), fsGet_remove_ne _ (Ne.symm hq2),
    fsGet_set_ne _ (Ne.symm hq2)]

/-- `build_and_save_jsonld` on the success path: build the graph, write it,
build the timestamped dataset descriptor, write it; returns the resulting
file system and both documents. -/
def build_and_save_jsonld (fs : FS) (idBase publicFilesBase : String)
    (firms : List FirmModel) (offices : List OfficeModel)
    (firmsOutputPath datasetOutputPath nowIso : String) : FS × Json × Json :=
  let firmsDoc := build_jsonld_graph idBase firms offices
  let fs1 := writeOk fs firmsOutputPath firmsDoc
  let dsDoc := datasetDoc firmsOutputPath publicFilesBase nowIso
    (compute_canonical_json_hash firmsDoc)
  let fs2 := writeOk fs1 datasetOutputPath dsDoc
  (fs2, firmsDoc, dsDoc)

/-- The manifest document of a manifest-builder result. -/
def manifestOf (r : Except FS (FS × Json)) : Json :=
  match r with
  | .ok (_, m) => m
  | .error _ => .null

/-- One full successful pipeline run (steps 4 and 5 of `run_pipeline.run`):
graph + descriptor, then the manifest over the files just written.  `tDs`
and `tMan` are the two `datetime.now` readings of the run. -/
def fullBuild (fs0 : FS) (idBase publicFilesBase : String)
    (firms : List FirmModel) (offices : List OfficeModel)
    (firmsPath datasetPath manifestPath tDs tMan : String)
    (env : Option String) (parsePem : String → Option RSAKey) :
    FS × Json × Json × Json :=
  let s := build_and_save_jsonld fs0 idBase publicFilesBase firms offices
    firmsPath datasetPath tDs
  let r := build_manifest_and_sign s.1 firmsPath datasetPath manifestPath
    tMan env parsePem none []
  (match r with | .ok (fs3, _) => fs3 | .error fs3 => fs3, s.2.1, s.2.2,
    manifestOf r)

/-- Remove a top-level object member. -/
def eraseKey (k : String) : Json → Json
  | .obj l => .obj (l.filter fun p => p.1 != k)
  | j => j

/-- Apply `f` to the value of one top-level member. -/
def mapAtKey (k : String) (f : Json → Json) : Json → Json
  | .obj l => .obj (l.map fun p => if p.1 = k then (p.1, f p.2) else p)
  | j => j

/-- Apply `f` to every element of an array. -/
def mapArr (f : Json → Json) : Json → Json
  | .arr l => .arr (l.map f)
  | j => j

/-- Drop the content-dependent fields (`sha256`, `sizeInBytes`) of the
distribution entry named `name`. -/
def stripEntryVolatile (name : String) (e : Json) : Json :=
  if jget e "path" = some (.str name) then
    match e with
    | .obj l => .obj (l.filter fun p => p.1 != "sha256" && p.1 != "sizeInBytes")
    | j => j
  else e

/-- Drop everything in a manifest that legitimately varies between two runs
over identical input: the generation timestamp, the signature (it signs the
timestamped content), and the hash/size of the timestamped dataset
descriptor's entry. -/
def stripManifestVolatile (name : String) (m : Json) : Json :=
  mapAtKey "distribution" (mapArr (stripEntryVolatile name))
    (eraseKey "vt:signature" (eraseKey "dateModified" m))

theorem stripEntryVolatile_fileEntry_self (p : String) (b : List Nat) :
    stripEntryVolatile (baseName p) (fileEntry p b) =
      Json.obj [("path", .str (baseName p))] := by
  rw [fileEntry, stripEntryVolatile, if_pos]
  · rfl
  · rfl

theorem strip_addSignature (name : String) (fsX : FS)
    (fp dp tman : String) (sig : Json) :
    stripManifestVolatile name (addSignature (manifestBase fsX fp dp tman) sig) =
      stripManifestVolatile name (manifestBase fsX fp dp tman) := by
  rw [manifestBase, stripManifestVolatile, stripManifestVolatile, addSignature]
  rw [eraseKey, eraseKey, List.filter_append]
  rfl

theorem strip_manifestBase (fsX : FS) (fp dp tman : String) (F D : List Nat)
    (hga : fsGet fsX fp = some F) (hgb : fsGet fsX dp = some D) :
    stripManifestVolatile (baseName dp) (manifestBase fsX fp dp tman) =
      Json.obj [
        ("@context", .arr [.str "https://schema.org/",
          .str "https://veritrustgroup.org/def/tier0/"]),
        ("@id", .str "https://api.veritrustgroup.org/manifest/tier0-sra"),
        ("@type", .str "Dataset"),
        ("name", .str "VeriTrust Tier‑0 SRA Manifest"),
        ("distribution", .arr [
          stripEntryVolatile (baseName dp) (fileEntry fp F),
          Json.obj [("path", .str (baseName dp))]])] := by
  rw [manifestBase, filesInfo_cons_some _ hga, filesInfo_cons_some [] hgb,
    show filesInfo fsX [] = [] from rfl]
  simp [stripManifestVolatile, eraseKey, mapAtKey, mapArr,
    stripEntryVolatile_fileEntry_self]

theorem strip_run_manifest (fs0 : FS) (fp dp mp tman : String)
    (env : Option String) (parsePem : String → Option RSAKey)
    (firmsDoc dsDoc : Json) (h1 : fp ≠ dp) (h2 : fp ≠ tmpPath dp) :
    stripManifestVolatile (baseName dp)
      (manifestOf (build_manifest_and_sign
        (writeOk (writeOk fs0 fp firmsDoc) dp dsDoc) fp dp mp tman env
        parsePem none [])) =
      Json.obj [
        ("@context", .arr [.str "https://schema.org/",
          .str "https://veritrustgroup.org/def/tier0/"]),
        ("@id", .str "https://api.veritrustgroup.org/manifest/tier0-sra"),
        ("@type", .str "Dataset"),
        ("name", .str "VeriTrust Tier‑0 SRA Manifest"),
        ("distribution", .arr [
          stripEntryVolatile (baseName dp)
            (fileEntry fp (dumpBytes firmsDoc)),
          Json.obj [("path", .str (baseName dp))]])] := by
  have hga : fsGet (writeOk (writeOk fs0 fp firmsDoc) dp dsDoc) fp =
      some (dumpBytes firmsDoc) := by
    rw [fsGet_writeOk_ne _ _ h1 h2, fsGet_writeOk_self]
  have hgb : fsGet (writeOk (writeOk fs0 fp firmsDoc) dp dsDoc) dp =
      some (dumpBytes dsDoc) := fsGet_writeOk_self _ _ _
  have hm : manifestOf (build_manifest_and_sign
      (writeOk (writeOk fs0 fp firmsDoc) dp dsDoc) fp dp mp tman env
      parsePem none []) =
    match try_load_private_key env parsePem with
    | some key => addSignature
        (manifestBase (writeOk (writeOk fs0 fp firmsDoc) dp dsDoc) fp dp tman)
        (Json.obj [("algorithm", .str "RSA-SHA256"),
          ("value", .str (rsa_sign_hex key (utf8Bytes (canon
            (manifestBase (writeOk (writeOk fs0 fp firmsDoc) dp dsDoc)
              fp dp tman)))))])
    | none => manifestBase (writeOk (writeOk fs0 fp firmsDoc) dp dsDoc)
        fp dp tman := rfl
  rw [hm]
  rcases htl : try_load_private_key env parsePem with _ | key
  · exact strip_manifestBase _ _ _ _ _ _ hga hgb
  · rw [strip_addSignature]
    exact strip_manifestBase _ _ _ _ _ _ hga hgb

/-- C9 (amended): two successful full builds over the same input produce a
byte-identical entity-graph document; dataset descriptors that differ only
in `dateModified`; and manifests that agree after additionally discarding
the dataset descriptor entry's `sha256`/`sizeInBytes` (that file's bytes
contain the run timestamp, so its digest differs) and the `vt:signature`
member (it signs the timestamped content). -/
theorem full_build_deterministic_modulo_volatile (fs0 : FS)
    (idBase pfb : String) (firms : List FirmModel)
    (offices : List OfficeModel)
    (firmsPath datasetPath manifestPath : String)
    (tDs1 tMan1 tDs2 tMan2 : String) (env : Option String)
    (parsePem : String → Option RSAKey)
    (h1 : firmsPath ≠ datasetPath) (h2 : firmsPath ≠ tmpPath datasetPath) :
    let run1 := fullBuild fs0 idBase pfb firms offices firmsPath datasetPath
      manifestPath tDs1 tMan1 env parsePem
    let run2 := fullBuild fs0 idBase pfb firms offices firmsPath datasetPath
      manifestPath tDs2 tMan2 env parsePem
    run1.2.1 = run2.2.1 ∧
    eraseKey "dateModified" run1.2.2.1 = eraseKey "dateModified" run2.2.2.1 ∧
    stripManifestVolatile (baseName datasetPath) run1.2.2.2 =
      stripManifestVolatile (baseName datasetPath) run2.2.2.2 := by
  intro run1 run2
  refine ⟨rfl, rfl, ?_⟩
  show stripManifestVolatile (baseName datasetPath)
      (manifestOf (build_manifest_and_sign
        (writeOk (writeOk fs0 firmsPath (build_jsonld_graph idBase firms offices))
          datasetPath (datasetDoc firmsPath pfb tDs1 (compute_canonical_json_hash
            (build_jsonld_graph idBase firms offices))))
        firmsPath datasetPath manifestPath tMan1 env parsePem none [])) =
    stripManifestVolatile (baseName datasetPath)
      (manifestOf (build_manifest_and_sign
        (writeOk (writeOk fs0 firmsPath (build_jsonld_graph idBase firms offices))
          datasetPath (datasetDoc firmsPath pfb tDs2 (compute_canonical_json_hash
            (build_jsonld_graph idBase firms offices))))
        firmsPath datasetPath manifestPath tMan2 env parsePem none []))
  rw [strip_run_manifest fs0 firmsPath datasetPath manifestPath tMan1 env
      parsePem _ _ h1 h2,
    strip_run_manifest fs0 firmsPath datasetPath manifestPath tMan2 env
      parsePem _ _ h1 h2]

/-- C9 witness: concrete runs at two timestamps with distinct artifact
paths. -/
theorem full_build_deterministic_modulo_volatile_witness :
    let run1 := fullBuild [] "https://api.veritrustgroup.org/id/"
      "https://api.veritrustgroup.org/files/" [] [] "norm/firms.jsonld"
      "norm/dataset.jsonld" "norm/manifest.jsonld"
      "2025-01-01T00:00:00+00:00" "2025-01-01T00:00:05+00:00" none
      (fun _ => none)
    let run2 := fullBuild [] "https://api.veritrustgroup.org/id/"
      "https://api.veritrustgroup.org/files/" [] [] "norm/firms.jsonld"
      "norm/dataset.jsonld" "norm/manifest.jsonld"
      "2025-01-02T00:00:00+00:00" "2025-01-02T00:00:05+00:00" none
      (fun _ => none)
    run1.2.1 = run2.2.1 ∧
    eraseKey "dateModified" run1.2.2.1 = eraseKey "dateModified" run2.2.2.1 ∧
    stripManifestVolatile (baseName "norm/dataset.jsonld") run1.2.2.2 =
      stripManifestVolatile (baseName "norm/dataset.jsonld") run2.2.2.2 :=
  full_build_deterministic_modulo_volatile [] "https://api.veritrustgroup.org/id/"
    "https://api.veritrustgroup.org/files/" [] [] "norm/firms.jsonld"
    "norm/dataset.jsonld" "norm/manifest.jsonld" "2025-01-01T00:00:00+00:00"
    "2025-01-01T00:00:05+00:00" "2025-01-02T00:00:00+00:00"
    "2025-01-02T00:00:05+00:00" none (fun _ => none) (by decide) (by decide)

/-- The `sizeInBytes` member of a manifest's second distribution entry (the
dataset descriptor's): the one-field projection the C9 counterexample uses
to tell the two manifests apart.  Reading one member never forces its
siblings, so this is cheap to evaluate. -/
def dsEntrySize (m : Json) : Option Json :=
  match jget m "distribution" with
  | some (.arr [_, e]) => jget e "sizeInBytes"
  | _ => none

set_option maxRecDepth 100000 in
/-- C9 counterexample: for two runs over the same (empty) input at different
timestamps, the manifests differ in more than `dateModified`: after erasing
the top-level `dateModified` from both manifests they are still different —
the dataset descriptor's distribution entry records that file's byte size
and SHA-256, and the file embeds the run timestamp (here of different
lengths, so already the `sizeInBytes` members disagree). -/
theorem manifests_differ_beyond_dateModified :
    eraseKey "dateModified"
      (fullBuild [] "https://api.veritrustgroup.org/id/"
        "https://api.veritrustgroup.org/files/" [] [] "norm/firms.jsonld"
        "norm/dataset.jsonld" "norm/manifest.jsonld"
        "2025-01-01T00:00:00+00:00" "2025-01-01T00:00:05+00:00" none
        (fun _ => none)).2.2.2 ≠
    eraseKey "dateModified"
      (fullBuild [] "https://api.veritrustgroup.org/id/"
        "https://api.veritrustgroup.org/files/" [] [] "norm/firms.jsonld"
        "norm/dataset.jsonld" "norm/manifest.jsonld"
        "2025-01-02T10:20:30.123456+00:00" "2025-01-02T10:20:31.123456+00:00"
        none (fun _ => none)).2.2.2 :=
  fun h => absurd (congrArg dsEntrySize h) (by decide)

end VT
